import Mathlib

/-!
Flow variable accessors exposed to Lua scripts.

A shallow embedding of `src/detect-luajit-extensions.c`: the six functions bound as
`ScFlowvarGet`, `ScFlowvarSet`, `ScFlowintGet`, `ScFlowintSet`, `ScFlowintIncr` and
`ScFlowintDecr`, over an explicit world (the flows with their variable slots), an event
trace (flow lock operations, identifier-table reads, slot reads and writes) and the
values handed back to the script; and of the cookie scan `GetCookieValue` of
`src/log-httplog.c`.
-/

set_option autoImplicit false

namespace Suricata

/-! ## Data model -/

/-- One `uint8_t`. -/
abbrev Byte := UInt8

/-- A value on the Lua stack, as far as the accessors inspect it.  A Lua number is a
double; the embedding carries the integral ones (every `int` and every `uint32_t` is
exactly representable in a double). -/
inductive LuaValue where
  | nil
  | boolean (b : Bool)
  | number (n : Int)
  | string (s : List Byte)
  | other
  deriving DecidableEq, Repr

/-- Compile-time constants and library behaviour the source file takes from headers that
are not part of it: the two capacity constants and the lock hint of `detect-luajit.h` and
`util-lua.h`, and the coercions between strings and numbers of the Lua runtime.  The
capacity constants are values of type `int`.  `str_as_int` is what the member
`fv_int.value` of the union reads when the slot holds the string member (`value`,
`value_len`): the bytes the two members share, which the layout in memory decides. -/
structure Env where
  DETECT_LUAJIT_MAX_FLOWVARS : Int
  DETECT_LUAJIT_MAX_FLOWINTS : Int
  LUA_FLOW_NOT_LOCKED_BY_PARENT : Int
  str2number : List Byte → Option Int
  number2str : Int → List Byte
  str_as_int : List Byte → Nat → Nat
  flowvars_int : DETECT_LUAJIT_MAX_FLOWVARS ≤ 2147483647
  flowints_int : DETECT_LUAJIT_MAX_FLOWINTS ≤ 2147483647

/-- The fields of `DetectLuajitData` the accessors read: `uint16_t flowvar[MAX_FLOWVARS]`
and `uint16_t flowint[MAX_FLOWINTS]`, the id to storage index tables. -/
structure DetectLuajitData where
  flowvar : Nat → Nat
  flowint : Nat → Nat

/-- A `FlowVar`: the union `data` with its two members, `fv_str` (`value`, `value_len`)
and `fv_int` (`value`). -/
inductive FlowVar where
  | fv_str (value : List Byte) (value_len : Nat)
  | fv_int (value : Nat)
  deriving DecidableEq, Repr

/-- A `Flow`, reduced to the variable slots attached to it, keyed by storage index. -/
structure Flow where
  flowvar : Nat → Option FlowVar

/-- The memory the accessors work on: the flows by address, and the allocator (whether a
request of a given size is served, and the bytes a fresh block happens to hold). -/
structure World where
  flows : Nat → Flow
  malloc_ok : Nat → Bool
  junk : Nat → Byte

/-- What the registry of one Lua state holds when an accessor runs: the pointers stored
under `luaext_key_ld` and `luaext_key_det_ctx` (`none` is `NULL`), the flow and the lock
hint. -/
structure LuaState where
  ld : Option DetectLuajitData
  det_ctx : Option Nat
  flow : Option Nat
  flow_lock : Int

/-- The two namespaces of the identifier table. -/
inductive Namespace where
  | flowvar
  | flowint
  deriving DecidableEq, Repr

/-- What an accessor does besides computing its result, in program order. -/
inductive Event where
  | FLOWLOCK_RDLOCK (f : Nat)
  | FLOWLOCK_WRLOCK (f : Nat)
  | FLOWLOCK_UNLOCK (f : Nat)
  | tableRead (ns : Namespace) (id : Int)
  | slotRead (f : Nat) (idx : Nat)
  | slotWrite (f : Nat) (idx : Nat)
  deriving DecidableEq, Repr

/-- Executions the C standard gives no meaning to. -/
inductive Fault where
  | tableOverrun (ns : Namespace) (id : Int)
  | copyOverrun (len : Nat) (avail : Nat)
  | unionMisread (idx : Nat)
  deriving DecidableEq, Repr

/-- How a call ends: the values returned to the script (the C return value is their
number), or an execution without defined behaviour. -/
inductive Outcome where
  | returned (vals : List LuaValue)
  | undefined (why : Fault)
  deriving DecidableEq, Repr

/-- The effect of one accessor call. -/
structure Result where
  out : Outcome
  world : World
  trace : List Event

/-! ## The Lua C API, as far as it is used -/

/-- The bytes of a C string literal. -/
def cstr (s : String) : List Byte :=
  s.toList.map (fun c => UInt8.ofNat c.toNat)

/-- Stack slot `i` (counted from 1) of the argument list; an absent slot is not a value
of any type. -/
def lua_arg (args : List LuaValue) (i : Nat) : LuaValue :=
  (args.get? (i - 1)).getD LuaValue.other

/-- Lua API `lua_isnumber`: a number, or a string convertible to one. -/
def lua_isnumber (E : Env) (v : LuaValue) : Bool :=
  match v with
  | LuaValue.number _ => true
  | LuaValue.string s => (E.str2number s).isSome
  | _ => false

/-- Lua API `lua_tonumber`: the number, or 0 when there is none. -/
def lua_tonumber (E : Env) (v : LuaValue) : Int :=
  match v with
  | LuaValue.number n => n
  | LuaValue.string s => (E.str2number s).getD 0
  | _ => 0

/-- Lua API `lua_isstring`: a string or a number. -/
def lua_isstring (v : LuaValue) : Bool :=
  match v with
  | LuaValue.string _ => true
  | LuaValue.number _ => true
  | _ => false

/-- Lua API `lua_tostring`: the bytes of the string (a number is converted), `NULL`
otherwise.  The C buffer holds one more byte, the terminating NUL. -/
def lua_tostring (E : Env) (v : LuaValue) : Option (List Byte) :=
  match v with
  | LuaValue.string s => some s
  | LuaValue.number n => some (E.number2str n)
  | _ => none

/-- Lua API `lua_pushstring` of a literal. -/
def lua_pushstring (s : String) : LuaValue :=
  LuaValue.string (cstr s)

/-- The conversion of a `lua_Number` to `int`: the value when it fits; outside the range
of `int` the conversion is not defined by C, and the embedding takes the result of the
x86 conversion instruction, `INT_MIN`. -/
def toCInt (x : Int) : Int :=
  if -2147483648 ≤ x ∧ x ≤ 2147483647 then x else -2147483648

/-- The conversion `(uint32_t)luanumber`: the value when it fits; outside the range the
conversion is not defined by C, and the embedding takes the result of the x86-64
conversion through a 64-bit integer: the low 32 bits below 2^63, and 0 from there on. -/
def toU32 (x : Int) : Nat :=
  if x < 9223372036854775808 then (x % 4294967296).toNat else 0

/-- The constant `UINT_MAX`. -/
def UINT_MAX : Nat := 4294967295

/-! ## Memory helpers -/

/-- C `memcpy (dst, src, n)` on buffers held as lists; `none` when `n` bytes are not
there to read or to write. -/
def memcpy (dst src : List Byte) (n : Nat) : Option (List Byte) :=
  if n ≤ src.length ∧ n ≤ dst.length then some (src.take n ++ dst.drop n) else none

/-- The macro `SCMalloc`: a fresh block of `n` bytes with arbitrary contents, or `NULL`. -/
def SCMalloc (W : World) (n : Nat) : Option (List Byte) :=
  if W.malloc_ok n then some ((List.range n).map W.junk) else none

/-- Read of `table[id]` in an array of `cap` entries. -/
def tableGet (cap : Int) (table : Nat → Nat) (id : Int) : Option Nat :=
  if 0 ≤ id ∧ id < cap then some (table id.toNat) else none

/-! ## The flow variable store -/

/-- Modelled from the spec: `LuaStateGetFlow` of `util-lua.c`, which is not part of the
sources; it hands out the current flow and the lock hint of the active script context. -/
def LuaStateGetFlow (L : LuaState) : Option Nat × Int :=
  (L.flow, L.flow_lock)

/-- Modelled from the spec: `FlowVarGet` of `flow-var.c`, which is not part of the
sources; `GetSlot(flow, storageIndex) -> Slot?`, one slot per index per flow. -/
def FlowVarGet (W : World) (f : Nat) (idx : Nat) : Option FlowVar :=
  (W.flows f).flowvar idx

/-- The store with slot `idx` of flow `f` replaced. -/
def setSlot (W : World) (f : Nat) (idx : Nat) (fv : FlowVar) : World :=
  { flows := Function.update W.flows f
      (Flow.mk (Function.update (W.flows f).flowvar idx (some fv))),
    malloc_ok := W.malloc_ok,
    junk := W.junk }

/-- Modelled from the spec: `FlowVarAddStrNoLock` of `flow-var.c`, which is not part of
the sources; the non-locking `SetStringSlot`, replacing any existing slot for the index
with the new owned buffer. -/
def FlowVarAddStrNoLock (W : World) (f : Nat) (idx : Nat) (value : List Byte)
    (size : Nat) : World × List Event :=
  (setSlot W f idx (FlowVar.fv_str value size), [Event.slotWrite f idx])

/-- Modelled from the spec: `FlowVarAddStr` of `flow-var.c`, which is not part of the
sources; `SetStringSlot` under the exclusive lock of the flow. -/
def FlowVarAddStr (W : World) (f : Nat) (idx : Nat) (value : List Byte)
    (size : Nat) : World × List Event :=
  ((FlowVarAddStrNoLock W f idx value size).1,
    [Event.FLOWLOCK_WRLOCK f] ++ (FlowVarAddStrNoLock W f idx value size).2
      ++ [Event.FLOWLOCK_UNLOCK f])

/-- Modelled from the spec: `FlowVarAddIntNoLock` of `flow-var.c`, which is not part of
the sources; the non-locking `SetIntSlot`, unconditionally replacing any prior value. -/
def FlowVarAddIntNoLock (W : World) (f : Nat) (idx : Nat) (value : Nat) :
    World × List Event :=
  (setSlot W f idx (FlowVar.fv_int value), [Event.slotWrite f idx])

/-- Modelled from the spec: `FlowVarAddInt` of `flow-var.c`, which is not part of the
sources; `SetIntSlot` under the exclusive lock of the flow. -/
def FlowVarAddInt (W : World) (f : Nat) (idx : Nat) (value : Nat) :
    World × List Event :=
  ((FlowVarAddIntNoLock W f idx value).1,
    [Event.FLOWLOCK_WRLOCK f] ++ (FlowVarAddIntNoLock W f idx value).2
      ++ [Event.FLOWLOCK_UNLOCK f])

/-! ## The accessors -/

/-- The two pushes `lua_pushnil`, `lua_pushstring (msg)` followed by `return 2`. -/
def failWith (W : World) (tr : List Event) (msg : String) : Result :=
  { out := Outcome.returned [LuaValue.nil, lua_pushstring msg], world := W, trace := tr }

/-- An execution that leaves defined behaviour. -/
def faultWith (W : World) (tr : List Event) (why : Fault) : Result :=
  { out := Outcome.undefined why, world := W, trace := tr }

/-- The events of `if (flow_lock == LUA_FLOW_NOT_LOCKED_BY_PARENT) FLOWLOCK_RDLOCK(f);`. -/
def rdlockIf (E : Env) (flow_lock : Int) (f : Nat) : List Event :=
  if flow_lock = E.LUA_FLOW_NOT_LOCKED_BY_PARENT then [Event.FLOWLOCK_RDLOCK f] else []

/-- The events of `if (flow_lock == LUA_FLOW_NOT_LOCKED_BY_PARENT) FLOWLOCK_UNLOCK(f);`. -/
def unlockIf (E : Env) (flow_lock : Int) (f : Nat) : List Event :=
  if flow_lock = E.LUA_FLOW_NOT_LOCKED_BY_PARENT then [Event.FLOWLOCK_UNLOCK f] else []

/-- The temporary buffer of `LuajitGetFlowvar`: `buflen` bytes, zeroed by `memset`, then
the `memcpy` of `value_len` bytes of the slot and the NUL written at `value_len`. -/
def getBuffer (value : List Byte) (value_len : Nat) : Option (List Byte) :=
  let buflen := value_len + 1 + ((value_len + 1) % 4)
  let buf := List.replicate buflen (0 : Byte)
  match memcpy buf value value_len with
  | none => none
  | some buf1 => some (buf1.set value_len 0)

/-- The function `LuajitGetFlowvar`, bound as `ScFlowvarGet`. -/
def LuajitGetFlowvar (E : Env) (L : LuaState) (args : List LuaValue) (W : World) :
    Result :=
  match L.ld with
  | none => failWith W [] "internal error: no ld"
  | some ld =>
    match LuaStateGetFlow L with
    | (none, _) => failWith W [] "no flow"
    | (some f, flow_lock) =>
      if !lua_isnumber E (lua_arg args 1) then failWith W [] "1st arg not a number"
      else
        let id := toCInt (lua_tonumber E (lua_arg args 1))
        if id < 0 ∨ id ≥ E.DETECT_LUAJIT_MAX_FLOWVARS then
          failWith W [] "flowvar id out of range"
        else
          match tableGet E.DETECT_LUAJIT_MAX_FLOWVARS ld.flowvar id with
          | none => faultWith W [] (Fault.tableOverrun Namespace.flowvar id)
          | some idx =>
            let t0 := [Event.tableRead Namespace.flowvar id]
            if idx = 0 then failWith W t0 "flowvar id uninitialized"
            else
              let t1 := t0 ++ rdlockIf E flow_lock f ++ [Event.slotRead f idx]
              match FlowVarGet W f idx with
              | none => failWith W (t1 ++ unlockIf E flow_lock f) "no flow var"
              | some (FlowVar.fv_int _) => faultWith W t1 (Fault.unionMisread idx)
              | some (FlowVar.fv_str value value_len) =>
                let reallen := value_len
                match getBuffer value value_len with
                | none => faultWith W t1 (Fault.copyOverrun value_len value.length)
                | some buf =>
                  { out := Outcome.returned [LuaValue.string (buf.take reallen)],
                    world := W,
                    trace := t1 ++ unlockIf E flow_lock f }

/-- The function `LuajitSetFlowvar`, bound as `ScFlowvarSet`. -/
def LuajitSetFlowvar (E : Env) (L : LuaState) (args : List LuaValue) (W : World) :
    Result :=
  match L.ld with
  | none => failWith W [] "internal error: no ld"
  | some ld =>
    match L.det_ctx with
    | none => failWith W [] "internal error: no det_ctx"
    | some _ =>
      match LuaStateGetFlow L with
      | (none, _) => failWith W [] "no flow"
      | (some f, flow_lock) =>
        if !lua_isnumber E (lua_arg args 1) then failWith W [] "1st arg not a number"
        else
          let id := toCInt (lua_tonumber E (lua_arg args 1))
          if id < 0 ∨ id ≥ E.DETECT_LUAJIT_MAX_FLOWVARS then
            failWith W [] "flowvar id out of range"
          else if !lua_isstring (lua_arg args 2) then
            failWith W [] "2nd arg not a string"
          else
            match lua_tostring E (lua_arg args 2) with
            | none => failWith W [] "null string"
            | some str =>
              if !lua_isnumber E (lua_arg args 3) then
                failWith W [] "3rd arg not a number"
              else
                let len := toCInt (lua_tonumber E (lua_arg args 3))
                if len < 0 ∨ len > 65535 then
                  failWith W [] "len out of range: max 64k"
                else
                  match tableGet E.DETECT_LUAJIT_MAX_FLOWVARS ld.flowvar id with
                  | none => faultWith W [] (Fault.tableOverrun Namespace.flowvar id)
                  | some idx =>
                    let t0 := [Event.tableRead Namespace.flowvar id]
                    if idx = 0 then failWith W t0 "flowvar id uninitialized"
                    else
                      match SCMalloc W (len.toNat + 1) with
                      | none => failWith W t0 "out of memory"
                      | some buffer =>
                        match memcpy buffer (str ++ [0]) len.toNat with
                        | none =>
                          faultWith W t0 (Fault.copyOverrun len.toNat (str.length + 1))
                        | some buffer1 =>
                          let buffer2 := buffer1.set len.toNat 0
                          let r :=
                            if flow_lock = E.LUA_FLOW_NOT_LOCKED_BY_PARENT then
                              FlowVarAddStr W f idx buffer2 len.toNat
                            else
                              FlowVarAddStrNoLock W f idx buffer2 len.toNat
                          { out := Outcome.returned [], world := r.1,
                            trace := t0 ++ r.2 }

/-- The function `LuajitGetFlowint`, bound as `ScFlowintGet`. -/
def LuajitGetFlowint (E : Env) (L : LuaState) (args : List LuaValue) (W : World) :
    Result :=
  match L.ld with
  | none => failWith W [] "internal error: no ld"
  | some ld =>
    match LuaStateGetFlow L with
    | (none, _) => failWith W [] "no flow"
    | (some f, flow_lock) =>
      if !lua_isnumber E (lua_arg args 1) then failWith W [] "1st arg not a number"
      else
        let id := toCInt (lua_tonumber E (lua_arg args 1))
        if id < 0 ∨ id ≥ E.DETECT_LUAJIT_MAX_FLOWINTS then
          failWith W [] "flowint id out of range"
        else
          match tableGet E.DETECT_LUAJIT_MAX_FLOWINTS ld.flowint id with
          | none => faultWith W [] (Fault.tableOverrun Namespace.flowint id)
          | some idx =>
            let t0 := [Event.tableRead Namespace.flowint id]
            if idx = 0 then failWith W t0 "flowint id uninitialized"
            else
              let t1 := t0 ++ rdlockIf E flow_lock f ++ [Event.slotRead f idx]
              match FlowVarGet W f idx with
              | none => failWith W (t1 ++ unlockIf E flow_lock f) "no flow var"
              | some (FlowVar.fv_str value value_len) =>
                let number := E.str_as_int value value_len % 4294967296
                { out := Outcome.returned [LuaValue.number (Int.ofNat number)],
                  world := W,
                  trace := t1 ++ unlockIf E flow_lock f }
              | some (FlowVar.fv_int number) =>
                { out := Outcome.returned [LuaValue.number (Int.ofNat number)],
                  world := W,
                  trace := t1 ++ unlockIf E flow_lock f }

/-- The function `LuajitSetFlowint`, bound as `ScFlowintSet`.  The range check of the
id compares with `DETECT_LUAJIT_MAX_FLOWVARS`, and the upper range check of the value
reads `id > (double)UINT_MAX`, as the source has them. -/
def LuajitSetFlowint (E : Env) (L : LuaState) (args : List LuaValue) (W : World) :
    Result :=
  match L.ld with
  | none => failWith W [] "internal error: no ld"
  | some ld =>
    match L.det_ctx with
    | none => failWith W [] "internal error: no det_ctx"
    | some _ =>
      match LuaStateGetFlow L with
      | (none, _) => failWith W [] "no flow"
      | (some f, flow_lock) =>
        if !lua_isnumber E (lua_arg args 1) then failWith W [] "1st arg not a number"
        else
          let id := toCInt (lua_tonumber E (lua_arg args 1))
          if id < 0 ∨ id ≥ E.DETECT_LUAJIT_MAX_FLOWVARS then
            failWith W [] "flowint id out of range"
          else if !lua_isnumber E (lua_arg args 2) then
            failWith W [] "2nd arg not a number"
          else
            let luanumber := lua_tonumber E (lua_arg args 2)
            if luanumber < 0 ∨ id > (UINT_MAX : Int) then
              failWith W [] "value out of range, value must be unsigned 32bit int"
            else
              let number := toU32 luanumber
              match tableGet E.DETECT_LUAJIT_MAX_FLOWINTS ld.flowint id with
              | none => faultWith W [] (Fault.tableOverrun Namespace.flowint id)
              | some idx =>
                let t0 := [Event.tableRead Namespace.flowint id]
                if idx = 0 then failWith W t0 "flowint id uninitialized"
                else
                  let r :=
                    if flow_lock = E.LUA_FLOW_NOT_LOCKED_BY_PARENT then
                      FlowVarAddInt W f idx number
                    else
                      FlowVarAddIntNoLock W f idx number
                  { out := Outcome.returned [], world := r.1, trace := t0 ++ r.2 }

/-- The function `LuajitIncrFlowint`, bound as `ScFlowintIncr`. -/
def LuajitIncrFlowint (E : Env) (L : LuaState) (args : List LuaValue) (W : World) :
    Result :=
  match L.ld with
  | none => failWith W [] "internal error: no ld"
  | some ld =>
    match LuaStateGetFlow L with
    | (none, _) => failWith W [] "no flow"
    | (some f, flow_lock) =>
      if !lua_isnumber E (lua_arg args 1) then failWith W [] "1st arg not a number"
      else
        let id := toCInt (lua_tonumber E (lua_arg args 1))
        if id < 0 ∨ id ≥ E.DETECT_LUAJIT_MAX_FLOWINTS then
          failWith W [] "flowint id out of range"
        else
          match tableGet E.DETECT_LUAJIT_MAX_FLOWINTS ld.flowint id with
          | none => faultWith W [] (Fault.tableOverrun Namespace.flowint id)
          | some idx =>
            let t0 := [Event.tableRead Namespace.flowint id]
            if idx = 0 then failWith W t0 "flowint id uninitialized"
            else
              let t1 := t0 ++ rdlockIf E flow_lock f ++ [Event.slotRead f idx]
              match FlowVarGet W f idx with
              | some (FlowVar.fv_str value value_len) =>
                let old := E.str_as_int value value_len % 4294967296
                let number := if old < UINT_MAX then old + 1 else old
                let r := FlowVarAddIntNoLock W f idx number
                { out := Outcome.returned [LuaValue.number (Int.ofNat number)],
                  world := r.1,
                  trace := t1 ++ r.2 ++ unlockIf E flow_lock f }
              | none =>
                let number := 1
                let r := FlowVarAddIntNoLock W f idx number
                { out := Outcome.returned [LuaValue.number (Int.ofNat number)],
                  world := r.1,
                  trace := t1 ++ r.2 ++ unlockIf E flow_lock f }
              | some (FlowVar.fv_int value) =>
                let number := if value < UINT_MAX then value + 1 else value
                let r := FlowVarAddIntNoLock W f idx number
                { out := Outcome.returned [LuaValue.number (Int.ofNat number)],
                  world := r.1,
                  trace := t1 ++ r.2 ++ unlockIf E flow_lock f }

/-- The function `LuajitDecrFlowint`, bound as `ScFlowintDecr`. -/
def LuajitDecrFlowint (E : Env) (L : LuaState) (args : List LuaValue) (W : World) :
    Result :=
  match L.ld with
  | none => failWith W [] "internal error: no ld"
  | some ld =>
    match LuaStateGetFlow L with
    | (none, _) => failWith W [] "no flow"
    | (some f, flow_lock) =>
      if !lua_isnumber E (lua_arg args 1) then failWith W [] "1st arg not a number"
      else
        let id := toCInt (lua_tonumber E (lua_arg args 1))
        if id < 0 ∨ id ≥ E.DETECT_LUAJIT_MAX_FLOWINTS then
          failWith W [] "flowint id out of range"
        else
          match tableGet E.DETECT_LUAJIT_MAX_FLOWINTS ld.flowint id with
          | none => faultWith W [] (Fault.tableOverrun Namespace.flowint id)
          | some idx =>
            let t0 := [Event.tableRead Namespace.flowint id]
            if idx = 0 then failWith W t0 "flowint id uninitialized"
            else
              let t1 := t0 ++ rdlockIf E flow_lock f ++ [Event.slotRead f idx]
              match FlowVarGet W f idx with
              | some (FlowVar.fv_str value value_len) =>
                let old := E.str_as_int value value_len % 4294967296
                let number := if old > 0 then old - 1 else old
                let r := FlowVarAddIntNoLock W f idx number
                { out := Outcome.returned [LuaValue.number (Int.ofNat number)],
                  world := r.1,
                  trace := t1 ++ r.2 ++ unlockIf E flow_lock f }
              | none =>
                let number := 0
                let r := FlowVarAddIntNoLock W f idx number
                { out := Outcome.returned [LuaValue.number (Int.ofNat number)],
                  world := r.1,
                  trace := t1 ++ r.2 ++ unlockIf E flow_lock f }
              | some (FlowVar.fv_int value) =>
                let number := if value > 0 then value - 1 else value
                let r := FlowVarAddIntNoLock W f idx number
                { out := Outcome.returned [LuaValue.number (Int.ofNat number)],
                  world := r.1,
                  trace := t1 ++ r.2 ++ unlockIf E flow_lock f }

/-- The value `ScFlowintIncr` computes from what the slot holds. -/
def incrValue (slot : Option FlowVar) : Nat :=
  match slot with
  | some (FlowVar.fv_int value) => if value < UINT_MAX then value + 1 else value
  | _ => 1

/-- The value `ScFlowintDecr` computes from what the slot holds. -/
def decrValue (slot : Option FlowVar) : Nat :=
  match slot with
  | some (FlowVar.fv_int value) => if value > 0 then value - 1 else value
  | _ => 0

/-- The world after `n` consecutive calls of `ScFlowintIncr` with the same arguments. -/
def incrTimes (E : Env) (L : LuaState) (args : List LuaValue) : Nat → World → World
  | 0, W => W
  | n + 1, W => (LuajitIncrFlowint E L args (incrTimes E L args n W)).world

/-! ## Concrete instances used to evaluate the accessors -/

/-- An environment with 15 ids per namespace, the lock hint value 1, and decimal
coercions left out (no string converts to a number). -/
def env15 : Env :=
  { DETECT_LUAJIT_MAX_FLOWVARS := 15,
    DETECT_LUAJIT_MAX_FLOWINTS := 15,
    LUA_FLOW_NOT_LOCKED_BY_PARENT := 1,
    str2number := fun _ => none,
    number2str := fun _ => [],
    str_as_int := fun _ _ => 0,
    flowvars_int := by decide,
    flowints_int := by decide }

/-- An environment whose string namespace has one id more than the integer namespace:
16 against 15. -/
def envSkew : Env :=
  { DETECT_LUAJIT_MAX_FLOWVARS := 16,
    DETECT_LUAJIT_MAX_FLOWINTS := 15,
    LUA_FLOW_NOT_LOCKED_BY_PARENT := 1,
    str2number := fun _ => none,
    number2str := fun _ => [],
    str_as_int := fun _ _ => 0,
    flowvars_int := by decide,
    flowints_int := by decide }

/-- An identifier table binding id 0 to storage index 7 in both namespaces and leaving
every other id unbound. -/
def ld0 : DetectLuajitData :=
  { flowvar := fun i => if i = 0 then 7 else 0,
    flowint := fun i => if i = 0 then 7 else 0 }

/-- A script context with tables, detection context and flow 1, lock not held by the
caller. -/
def lua0 : LuaState :=
  { ld := some ld0, det_ctx := some 0, flow := some 1, flow_lock := 1 }

/-- A world in which no flow has a slot and every allocation is served. -/
def world0 : World :=
  { flows := fun _ => { flowvar := fun _ => none },
    malloc_ok := fun _ => true,
    junk := fun _ => 170 }

/-- An environment whose integer namespace has one id more than the string namespace:
16 against 15. -/
def envSkewInt : Env :=
  { DETECT_LUAJIT_MAX_FLOWVARS := 15,
    DETECT_LUAJIT_MAX_FLOWINTS := 16,
    LUA_FLOW_NOT_LOCKED_BY_PARENT := 1,
    str2number := fun _ => none,
    number2str := fun _ => [],
    str_as_int := fun _ _ => 0,
    flowvars_int := by decide,
    flowints_int := by decide }

/-- An identifier table binding the integer id 15 to storage index 9. -/
def ld15 : DetectLuajitData :=
  { flowvar := fun _ => 0,
    flowint := fun i => if i = 15 then 9 else 0 }

/-- A script context over `ld15`, flow 1, lock not held by the caller. -/
def lua15 : LuaState :=
  { ld := some ld15, det_ctx := some 0, flow := some 1, flow_lock := 1 }

/-- The script context `lua0` with the hint saying that the caller holds the flow
lock. -/
def luaLocked : LuaState :=
  { ld := some ld0, det_ctx := some 0, flow := some 1, flow_lock := 0 }

/-- Whether an event is an operation on a flow lock. -/
def Event.isLock : Event → Bool
  | Event.FLOWLOCK_RDLOCK _ => true
  | Event.FLOWLOCK_WRLOCK _ => true
  | Event.FLOWLOCK_UNLOCK _ => true
  | _ => false

/-- Whether an event acquires a flow lock. -/
def Event.isAcquire : Event → Bool
  | Event.FLOWLOCK_RDLOCK _ => true
  | Event.FLOWLOCK_WRLOCK _ => true
  | _ => false

/-- Whether an event releases a flow lock. -/
def Event.isRelease : Event → Bool
  | Event.FLOWLOCK_UNLOCK _ => true
  | _ => false

/-- Whether an event writes a slot. -/
def Event.isWrite : Event → Bool
  | Event.slotWrite _ _ => true
  | _ => false

/-- The number of lock acquisitions in a trace. -/
def acquires (tr : List Event) : Nat :=
  tr.countP Event.isAcquire

/-- The number of lock releases in a trace. -/
def releases (tr : List Event) : Nat :=
  tr.countP Event.isRelease

/-- Modelled from the spec: `LuaStateSetFlow` of `util-lua.c`, which is not part of the
sources; it stores the flow and the lock hint of the script invocation to come, where
`LuaStateGetFlow` reads them. -/
def LuaStateSetFlow (L : LuaState) (f : Option Nat) (flow_locked : Int) : LuaState :=
  { L with flow := f, flow_lock := flow_locked }

/-- The function `LuajitExtensionsMatchSetup`: the two `lua_settable` writes into the
registry, under `luaext_key_ld` and `luaext_key_det_ctx`, then `LuaStateSetFlow`. -/
def LuajitExtensionsMatchSetup (lua_state : LuaState) (ld : Option DetectLuajitData)
    (det_ctx : Option Nat) (f : Option Nat) (flow_locked : Int) : LuaState :=
  let s1 := { lua_state with ld := ld }
  let s2 := { s1 with det_ctx := det_ctx }
  LuaStateSetFlow s2 f flow_locked

/-- The six accessors, in the order they are registered. -/
def accessors : List (Env → LuaState → List LuaValue → World → Result) :=
  [LuajitGetFlowvar, LuajitSetFlowvar, LuajitGetFlowint, LuajitSetFlowint,
    LuajitIncrFlowint, LuajitDecrFlowint]

/-- The C functions of this file a Lua global can be bound to. -/
inductive CFunction where
  | LuajitGetFlowvar
  | LuajitSetFlowvar
  | LuajitGetFlowint
  | LuajitSetFlowint
  | LuajitIncrFlowint
  | LuajitDecrFlowint
  deriving DecidableEq, Repr

/-- What a global of a Lua state holds: one of the C functions above, or any other
value. -/
inductive Global where
  | cfunction (fn : CFunction)
  | value (v : LuaValue)
  deriving DecidableEq, Repr

/-- The global namespace of one Lua state; `none` is an unset global. -/
abbrev Globals := String → Option Global

/-- Lua API `lua_pushcfunction` followed by `lua_setglobal`: the global `name` is bound
to the function. -/
def lua_setglobal (G : Globals) (name : String) (fn : CFunction) : Globals :=
  Function.update G name (some (Global.cfunction fn))

/-- The function `LuajitRegisterExtensions`: six bindings, then `return 0`. -/
def LuajitRegisterExtensions (lua_state : Globals) : Globals × Int :=
  let g1 := lua_setglobal lua_state "ScFlowvarGet" CFunction.LuajitGetFlowvar
  let g2 := lua_setglobal g1 "ScFlowvarSet" CFunction.LuajitSetFlowvar
  let g3 := lua_setglobal g2 "ScFlowintGet" CFunction.LuajitGetFlowint
  let g4 := lua_setglobal g3 "ScFlowintSet" CFunction.LuajitSetFlowint
  let g5 := lua_setglobal g4 "ScFlowintIncr" CFunction.LuajitIncrFlowint
  let g6 := lua_setglobal g5 "ScFlowintDecr" CFunction.LuajitDecrFlowint
  (g6, 0)

/-- The six names `LuajitRegisterExtensions` binds. -/
def registeredNames : List String :=
  ["ScFlowvarGet", "ScFlowvarSet", "ScFlowintGet", "ScFlowintSet", "ScFlowintIncr",
    "ScFlowintDecr"]

/-- Modelled from the spec: the lock of a flow behind `FLOWLOCK_RDLOCK`,
`FLOWLOCK_WRLOCK` and `FLOWLOCK_UNLOCK` (macros of `flow.h`, which is not part of the
sources), a reader/writer lock: any number of shared holders, or one exclusive
holder. -/
structure FlowLock where
  readers : Nat
  writer : Bool
  deriving DecidableEq, Repr

/-- What worker threads inside `LuajitIncrFlowint` share: the world and the lock of the
flow they work on. -/
structure Shared where
  world : World
  lock : FlowLock

/-- One worker thread in the part of `LuajitIncrFlowint` that follows its checks (lines
470 to 485), with hint `LUA_FLOW_NOT_LOCKED_BY_PARENT`: `pc` 0 stands before
`FLOWLOCK_RDLOCK`, 1 before `FlowVarGet`, 2 before `FlowVarAddIntNoLock`, 3 before
`FLOWLOCK_UNLOCK`, 4 after it; `number` is the local variable. -/
structure IncrThread where
  pc : Nat
  number : Nat
  deriving DecidableEq, Repr

/-- One step of a thread on flow `f` and storage index `idx`; `none` when the thread
cannot move (the lock is not granted, or the thread has returned). -/
def incrThreadStep (f idx : Nat) (S : Shared) (t : IncrThread) :
    Option (Shared × IncrThread) :=
  match t.pc with
  | 0 =>
    if S.lock.writer then none
    else some ({ world := S.world,
                 lock := { readers := S.lock.readers + 1, writer := S.lock.writer } },
               { pc := 1, number := t.number })
  | 1 => some (S, { pc := 2, number := incrValue (FlowVarGet S.world f idx) })
  | 2 => some ({ world := (FlowVarAddIntNoLock S.world f idx t.number).1, lock := S.lock },
               { pc := 3, number := t.number })
  | 3 => some ({ world := S.world,
                 lock := { readers := S.lock.readers - 1, writer := S.lock.writer } },
               { pc := 4, number := t.number })
  | _ => none

/-- The threads run in the order a schedule names them, one step each time; `none`
when the schedule asks a thread to move that cannot. -/
def runSchedule (f idx : Nat) :
    List Nat → Shared × List IncrThread → Option (Shared × List IncrThread)
  | [], st => some st
  | i :: rest, (S, ts) =>
    match ts.get? i with
    | none => none
    | some t =>
      match incrThreadStep f idx S t with
      | none => none
      | some (S1, t1) => runSchedule f idx rest (S1, ts.set i t1)

/-- What is observed at the end of a schedule: the threads, the slot and the number of
lock holders. -/
def observe (f idx : Nat) (r : Option (Shared × List IncrThread)) :
    Option (List IncrThread × Option FlowVar × Nat) :=
  r.map (fun st => (st.2, FlowVarGet st.1.world f idx, st.1.lock.readers))

/-- Two threads about to enter `LuajitIncrFlowint` on a flow without slots and a free
lock. -/
def twoThreads : Shared × List IncrThread :=
  ({ world := world0, lock := { readers := 0, writer := false } },
    [{ pc := 0, number := 0 }, { pc := 0, number := 0 }])

/-- A world in which slot 7 of flow 1 holds the integer 5. -/
def worldInt5 : World :=
  { flows := fun g =>
      { flowvar := fun j => if g = 1 ∧ j = 7 then some (FlowVar.fv_int 5) else none },
    malloc_ok := fun _ => true,
    junk := fun _ => 170 }

/-- A world in which slot 7 of flow 1 holds the two-byte string `ab`. -/
def worldStr : World :=
  { flows := fun g =>
      { flowvar := fun j =>
          if g = 1 ∧ j = 7 then some (FlowVar.fv_str [97, 98, 0] 2) else none },
    malloc_ok := fun _ => true,
    junk := fun _ => 170 }

/-- The size `buflen` of the temporary buffer of `LuajitGetFlowvar` (line 137), as
`getBuffer` computes it. -/
def bufferLength (value_len : Nat) : Nat :=
  value_len + 1 + ((value_len + 1) % 4)

/-! ## The cookie scan of `log-httplog.c` -/

/-- C `strlen` on the bytes a `char *` points to: the number of bytes before the first
NUL (the list is followed by a NUL). -/
def strlen (s : List Byte) : Nat :=
  (s.takeWhile (fun b => b != 0)).length

/-- C `strncmp (s1, s2, n)`: at most `n` bytes are compared, up to a difference or a
NUL in both; the result is 0 when none differs. A byte behind the end of a list reads
as NUL. -/
def strncmp : List Byte → List Byte → Nat → Int
  | _, _, 0 => 0
  | s1, s2, n + 1 =>
    if s1.headD 0 ≠ s2.headD 0 then ((s1.headD 0).toNat : Int) - ((s2.headD 0).toNat : Int)
    else if s1.headD 0 = 0 then 0
    else strncmp s1.tail s2.tail n

/-- What `GetCookieValue` hands back: its return value, the pointer it stored in
`*cookievalue` as an offset into `rawcookies` (`none` when it stored nothing), and, as
a record of the scan, the pairs `(cn, cv)` of name start and value start it compared
the name at, in order. -/
structure CookieResult where
  ret : Nat
  cookievalue : Option Nat
  scanned : List (Nat × Nat)
  deriving DecidableEq, Repr

/-- The test of lines 113 and 114: `strlen (cookiename) == (unsigned int) (cv-cn-1)` and
`strncmp (cookiename, cn, cv-cn-1) == 0`, the pointers being offsets into
`rawcookies`. -/
def nameMatches (rawcookies cookiename : List Byte) (cn cv : Nat) : Bool :=
  decide ((strlen cookiename : Int) = ((cv : Int) - (cn : Int) - 1) % 4294967296)
    && decide (strncmp cookiename (rawcookies.drop cn)
        ((((cv : Int) - (cn : Int) - 1) % 18446744073709551616).toNat) = 0)

/-- The `while` loop of `GetCookieValue` from the state `(p, cn, cv)`, pointers being
offsets into `rawcookies` and `none` the `NULL` of `cv`; one unit of fuel per
iteration, `none` when the fuel runs out. -/
def cookieLoop (rawcookies : List Byte) (rawcookies_len : Nat) (cookiename : List Byte) :
    Nat → Nat → Nat → Option Nat → List (Nat × Nat) → Option CookieResult
  | 0, _, _, _, _ => none
  | fuel + 1, p, cn, cv, scanned =>
    if p < rawcookies_len then
      match cv with
      | none =>
        if rawcookies.getD p 0 = 61 then
          cookieLoop rawcookies rawcookies_len cookiename fuel (p + 1) cn (some (p + 1))
            scanned
        else
          cookieLoop rawcookies rawcookies_len cookiename fuel (p + 1) cn none scanned
      | some c =>
        if rawcookies.getD p 0 = 59 ∨ p = rawcookies_len - 1 then
          if nameMatches rawcookies cookiename cn c then
            some { ret := ((((p + 1 : Nat) : Int) - (c : Int)) % 4294967296).toNat,
                   cookievalue := some c,
                   scanned := scanned ++ [(cn, c)] }
          else
            cookieLoop rawcookies rawcookies_len cookiename fuel (p + 1 + 1) (p + 1 + 1)
              none (scanned ++ [(cn, c)])
        else
          cookieLoop rawcookies rawcookies_len cookiename fuel (p + 1) cn (some c) scanned
    else
      some { ret := 0, cookievalue := none, scanned := scanned }

/-- The function `GetCookieValue`: the loop from `p = cn = rawcookies`, `cv = NULL`,
with one more unit of fuel than there are bytes. -/
def GetCookieValue (rawcookies : List Byte) (rawcookies_len : Nat)
    (cookiename : List Byte) : Option CookieResult :=
  cookieLoop rawcookies rawcookies_len cookiename (rawcookies_len + 1) 0 0 none []

/-- The header `a=1; b=2`. -/
def cookiesAB : List Byte := [97, 61, 49, 59, 32, 98, 61, 50]

/-- The Cookie header that carries the given name and value pairs: each pair written
`name=value`, the pairs joined by `sep`. This is the reading of "pair" in the statements
about `GetCookieValue`; it is not code of the repository but follows the wording of the
property, and the scan of the source is compared with it. -/
def cookieHeader (sep : List Byte) : List (List Byte × List Byte) → List Byte
  | [] => []
  | [(n, v)] => n ++ 61 :: v
  | (n, v) :: q :: rest => n ++ 61 :: (v ++ (sep ++ cookieHeader sep (q :: rest)))

end Suricata

namespace Suricata

/-! ## Basic facts about the store and the buffers -/

@[simp] theorem FlowVarGet_setSlot_same (W : World) (f idx : Nat) (fv : FlowVar) :
    FlowVarGet (setSlot W f idx fv) f idx = some fv := by
  simp [FlowVarGet, setSlot]

theorem FlowVarGet_setSlot_other_idx (W : World) (f idx j : Nat) (fv : FlowVar)
    (h : j ≠ idx) : FlowVarGet (setSlot W f idx fv) f j = FlowVarGet W f j := by
  simp [FlowVarGet, setSlot, Function.update_noteq h]

theorem FlowVarGet_setSlot_other_flow (W : World) (f g idx j : Nat) (fv : FlowVar)
    (h : g ≠ f) : FlowVarGet (setSlot W f idx fv) g j = FlowVarGet W g j := by
  simp [FlowVarGet, setSlot, Function.update_noteq h]

theorem take_set_self (l : List Byte) (n : Nat) (b : Byte) :
    (l.set n b).take n = l.take n := by
  rw [List.set_take]
  exact List.set_eq_of_length_le (by simp)

theorem getBuffer_eq (value : List Byte) (value_len : Nat)
    (h : value_len ≤ value.length) :
    getBuffer value value_len = some
      ((value.take value_len ++
        (List.replicate (value_len + 1 + (value_len + 1) % 4) (0 : Byte)).drop
          value_len).set value_len 0) := by
  have hb : value_len ≤
      (List.replicate (value_len + 1 + (value_len + 1) % 4) (0 : Byte)).length := by
    simp; omega
  simp only [getBuffer, memcpy]
  rw [if_pos ⟨h, hb⟩]

theorem getBuffer_take (value : List Byte) (value_len : Nat)
    (h : value_len ≤ value.length) :
    ∃ buf, getBuffer value value_len = some buf ∧
      buf.take value_len = value.take value_len := by
  refine ⟨_, getBuffer_eq value value_len h, ?_⟩
  rw [take_set_self]
  simp [List.take_append_eq_append_take, h]

theorem toCInt_of_nonneg {x : Int} (h : 0 ≤ toCInt x) : toCInt x = x := by
  unfold toCInt at h ⊢
  split
  · rfl
  · rename_i hx
    rw [if_neg hx] at h
    omega

theorem toCInt_eq {x c : Int} (h0 : 0 ≤ x) (h1 : x < c) (hc : c ≤ 2147483647) :
    toCInt x = x := by
  unfold toCInt
  rw [if_pos]
  omega

/-- Closed form of a `ScFlowvarSet` call that passes every check. -/
theorem LuajitSetFlowvar_ok (E : Env) (L : LuaState) (W : World) (ld : DetectLuajitData)
    (dc f : Nat) (id n : Int) (v : List Byte)
    (hld : L.ld = some ld) (hdc : L.det_ctx = some dc) (hf : L.flow = some f)
    (hid0 : 0 ≤ id) (hid1 : id < E.DETECT_LUAJIT_MAX_FLOWVARS)
    (hidx : ld.flowvar id.toNat ≠ 0)
    (hn0 : 0 ≤ n) (hn1 : n ≤ 65535) (hv : n.toNat ≤ v.length + 1)
    (hm : W.malloc_ok (n.toNat + 1) = true) :
    LuajitSetFlowvar E L [LuaValue.number id, LuaValue.string v, LuaValue.number n] W =
      { out := Outcome.returned [],
        world := setSlot W f (ld.flowvar id.toNat)
          (FlowVar.fv_str
            (((v ++ [0]).take n.toNat ++
              ((List.range (n.toNat + 1)).map W.junk).drop n.toNat).set n.toNat 0)
            n.toNat),
        trace := [Event.tableRead Namespace.flowvar id] ++
          (if L.flow_lock = E.LUA_FLOW_NOT_LOCKED_BY_PARENT then
            [Event.FLOWLOCK_WRLOCK f, Event.slotWrite f (ld.flowvar id.toNat),
              Event.FLOWLOCK_UNLOCK f]
          else [Event.slotWrite f (ld.flowvar id.toNat)]) } := by
  have hid : toCInt id = id := toCInt_eq hid0 hid1 E.flowvars_int
  have hlen : toCInt n = n := toCInt_eq hn0 (by omega : n < 65536) (by decide)
  have hcp : memcpy ((List.range (n.toNat + 1)).map W.junk) (v ++ [0]) n.toNat =
      some ((v ++ [0]).take n.toNat ++
        ((List.range (n.toNat + 1)).map W.junk).drop n.toNat) := by
    unfold memcpy
    rw [if_pos]
    simp
    omega
  simp [LuajitSetFlowvar, hld, hdc, hf, LuaStateGetFlow, lua_arg, lua_isnumber,
    lua_tonumber, lua_isstring, lua_tostring, hid, hlen, tableGet, SCMalloc, hm, hcp,
    hid0, hid1, hn0, hn1, hidx, not_lt.mpr hid0, not_lt.mpr hn0, not_le.mpr hid1,
    not_lt.mpr hn1, FlowVarAddStr, FlowVarAddStrNoLock]
  by_cases hl : L.flow_lock = E.LUA_FLOW_NOT_LOCKED_BY_PARENT <;> simp [hl]

/-- What a `ScFlowvarSet` call that returns no value (success) tells about its inputs. -/
theorem LuajitSetFlowvar_success (E : Env) (L : LuaState) (W : World) (id n : Int)
    (v : List Byte)
    (h : (LuajitSetFlowvar E L
      [LuaValue.number id, LuaValue.string v, LuaValue.number n] W).out =
        Outcome.returned []) :
    ∃ ld dc f, L.ld = some ld ∧ L.det_ctx = some dc ∧ L.flow = some f ∧
      0 ≤ id ∧ id < E.DETECT_LUAJIT_MAX_FLOWVARS ∧ ld.flowvar id.toNat ≠ 0 ∧
      0 ≤ n ∧ n ≤ 65535 ∧ n.toNat ≤ v.length + 1 ∧
      W.malloc_ok (n.toNat + 1) = true := by
  cases hld : L.ld with
  | none => simp [LuajitSetFlowvar, hld, failWith] at h
  | some ld =>
    cases hdc : L.det_ctx with
    | none => simp [LuajitSetFlowvar, hld, hdc, failWith] at h
    | some dc =>
      cases hf : L.flow with
      | none => simp [LuajitSetFlowvar, hld, hdc, hf, LuaStateGetFlow, failWith] at h
      | some f =>
        by_cases hid : toCInt id < 0 ∨ toCInt id ≥ E.DETECT_LUAJIT_MAX_FLOWVARS
        · simp [LuajitSetFlowvar, hld, hdc, hf, LuaStateGetFlow, failWith, lua_arg,
            lua_isnumber, lua_tonumber, hid] at h
        · have hid0 : 0 ≤ toCInt id := by omega
          have hidE : toCInt id = id := toCInt_of_nonneg hid0
          rw [hidE] at hid hid0
          by_cases hlen : toCInt n < 0 ∨ toCInt n > 65535
          · simp [LuajitSetFlowvar, hld, hdc, hf, LuaStateGetFlow, failWith, lua_arg,
              lua_isnumber, lua_tonumber, lua_isstring, lua_tostring, hid, hidE,
              hlen] at h
          · have hn0 : 0 ≤ toCInt n := by omega
            have hnE : toCInt n = n := toCInt_of_nonneg hn0
            rw [hnE] at hlen hn0
            have hid1 : id < E.DETECT_LUAJIT_MAX_FLOWVARS := by omega
            by_cases hidx : ld.flowvar id.toNat = 0
            · simp [LuajitSetFlowvar, hld, hdc, hf, LuaStateGetFlow, failWith, lua_arg,
                lua_isnumber, lua_tonumber, lua_isstring, lua_tostring, hid, hidE,
                hlen, hnE, tableGet, hid0, hid1, hidx] at h
            · by_cases hm : W.malloc_ok (n.toNat + 1) = true
              · by_cases hv : n.toNat ≤ v.length + 1
                · exact ⟨ld, dc, f, rfl, rfl, rfl, hid0, hid1, hidx, hn0, by omega, hv,
                    hm⟩
                · simp [LuajitSetFlowvar, hld, hdc, hf, LuaStateGetFlow, failWith,
                    faultWith, lua_arg, lua_isnumber, lua_tonumber, lua_isstring,
                    lua_tostring, hid, hidE, hlen, hnE, tableGet, hid0, hid1, hidx,
                    SCMalloc, hm, memcpy, hv] at h
              · simp [LuajitSetFlowvar, hld, hdc, hf, LuaStateGetFlow, failWith, lua_arg,
                  lua_isnumber, lua_tonumber, lua_isstring, lua_tostring, hid, hidE,
                  hlen, hnE, tableGet, hid0, hid1, hidx, SCMalloc, hm] at h

/-- Closed form of a `ScFlowvarGet` call that finds a string slot. -/
theorem LuajitGetFlowvar_ok (E : Env) (L : LuaState) (W : World) (ld : DetectLuajitData)
    (f : Nat) (id : Int) (value : List Byte) (value_len : Nat)
    (hld : L.ld = some ld) (hf : L.flow = some f)
    (hid0 : 0 ≤ id) (hid1 : id < E.DETECT_LUAJIT_MAX_FLOWVARS)
    (hidx : ld.flowvar id.toNat ≠ 0)
    (hslot : FlowVarGet W f (ld.flowvar id.toNat) = some (FlowVar.fv_str value value_len))
    (hlen : value_len ≤ value.length) :
    LuajitGetFlowvar E L [LuaValue.number id] W =
      { out := Outcome.returned [LuaValue.string (value.take value_len)],
        world := W,
        trace := [Event.tableRead Namespace.flowvar id] ++ rdlockIf E L.flow_lock f ++
          [Event.slotRead f (ld.flowvar id.toNat)] ++ unlockIf E L.flow_lock f } := by
  have hid : toCInt id = id := toCInt_eq hid0 hid1 E.flowvars_int
  obtain ⟨buf, hbuf, htake⟩ := getBuffer_take value value_len hlen
  simp [LuajitGetFlowvar, hld, hf, LuaStateGetFlow, lua_arg, lua_isnumber, lua_tonumber,
    hid, tableGet, hid0, hid1, hidx, not_lt.mpr hid0, not_le.mpr hid1, hslot, hbuf, htake]

/-- The bytes `ScFlowvarSet` stores, read back: the first `n` bytes of the value. -/
theorem stored_take (v junk : List Byte) (n : Nat) (h : n ≤ v.length) :
    (((v ++ [0]).take n ++ junk.drop n).set n 0).take n = v.take n := by
  rw [take_set_self]
  simp [List.take_append_eq_append_take, h]

/-- After a successful `ScFlowvarSet (id, v, n)` with `n` at most the length of `v`,
`ScFlowvarGet (id)` returns the first `n` bytes of `v`. -/
theorem get_after_set (E : Env) (L : LuaState) (W : World) (id n : Int) (v : List Byte)
    (hv : n ≤ (v.length : Int))
    (hset : (LuajitSetFlowvar E L
      [LuaValue.number id, LuaValue.string v, LuaValue.number n] W).out =
        Outcome.returned []) :
    (LuajitGetFlowvar E L [LuaValue.number id]
      (LuajitSetFlowvar E L
        [LuaValue.number id, LuaValue.string v, LuaValue.number n] W).world).out =
      Outcome.returned [LuaValue.string (v.take n.toNat)] := by
  obtain ⟨ld, dc, f, hld, hdc, hf, hid0, hid1, hidx, hn0, hn1, hv1, hm⟩ :=
    LuajitSetFlowvar_success E L W id n v hset
  have hnv : n.toNat ≤ v.length := by omega
  rw [LuajitSetFlowvar_ok E L W ld dc f id n v hld hdc hf hid0 hid1 hidx hn0 hn1 hv1 hm]
  rw [LuajitGetFlowvar_ok E L _ ld f id _ n.toNat hld hf hid0 hid1 hidx
    (FlowVarGet_setSlot_same _ _ _ _) (by simp; omega)]
  simp only
  rw [stored_take v _ n.toNat hnv]

/-! ## Closed forms of the integer accessors -/

/-- Closed form of a `ScFlowintSet` call that passes every check the code makes. -/
theorem LuajitSetFlowint_ok (E : Env) (L : LuaState) (W : World) (ld : DetectLuajitData)
    (dc f : Nat) (id v : Int)
    (hld : L.ld = some ld) (hdc : L.det_ctx = some dc) (hf : L.flow = some f)
    (hid0 : 0 ≤ id) (hid1 : id < E.DETECT_LUAJIT_MAX_FLOWVARS)
    (hid2 : id < E.DETECT_LUAJIT_MAX_FLOWINTS)
    (hidx : ld.flowint id.toNat ≠ 0) (hv0 : 0 ≤ v) :
    LuajitSetFlowint E L [LuaValue.number id, LuaValue.number v] W =
      { out := Outcome.returned [],
        world := setSlot W f (ld.flowint id.toNat) (FlowVar.fv_int (toU32 v)),
        trace := [Event.tableRead Namespace.flowint id] ++
          (if L.flow_lock = E.LUA_FLOW_NOT_LOCKED_BY_PARENT then
            [Event.FLOWLOCK_WRLOCK f, Event.slotWrite f (ld.flowint id.toNat),
              Event.FLOWLOCK_UNLOCK f]
          else [Event.slotWrite f (ld.flowint id.toNat)]) } := by
  have hid : toCInt id = id := toCInt_eq hid0 hid1 E.flowvars_int
  have hmax : ¬ (UINT_MAX : Int) < id := by
    have := E.flowvars_int
    simp only [UINT_MAX]
    omega
  simp [LuajitSetFlowint, hld, hdc, hf, LuaStateGetFlow, lua_arg, lua_isnumber,
    lua_tonumber, hid, tableGet, hid0, hid1, hid2, hidx, not_lt.mpr hid0,
    not_le.mpr hid1, not_lt.mpr hv0, hmax, FlowVarAddInt, FlowVarAddIntNoLock]
  by_cases hl : L.flow_lock = E.LUA_FLOW_NOT_LOCKED_BY_PARENT <;> simp [hl]

/-- Closed form of `ScFlowintGet` on a bound id, by what the slot holds. -/
theorem LuajitGetFlowint_ok (E : Env) (L : LuaState) (W : World) (ld : DetectLuajitData)
    (f : Nat) (id : Int) (rest : List LuaValue)
    (hld : L.ld = some ld) (hf : L.flow = some f)
    (hid0 : 0 ≤ id) (hid1 : id < E.DETECT_LUAJIT_MAX_FLOWINTS)
    (hidx : ld.flowint id.toNat ≠ 0) :
    (∀ number, FlowVarGet W f (ld.flowint id.toNat) = some (FlowVar.fv_int number) →
      LuajitGetFlowint E L (LuaValue.number id :: rest) W =
        { out := Outcome.returned [LuaValue.number (Int.ofNat number)],
          world := W,
          trace := [Event.tableRead Namespace.flowint id] ++ rdlockIf E L.flow_lock f ++
            [Event.slotRead f (ld.flowint id.toNat)] ++ unlockIf E L.flow_lock f })
    ∧ (FlowVarGet W f (ld.flowint id.toNat) = none →
      LuajitGetFlowint E L (LuaValue.number id :: rest) W =
        failWith W ([Event.tableRead Namespace.flowint id] ++ rdlockIf E L.flow_lock f ++
            [Event.slotRead f (ld.flowint id.toNat)] ++ unlockIf E L.flow_lock f)
          "no flow var") := by
  have hid : toCInt id = id := toCInt_eq hid0 hid1 E.flowints_int
  constructor
  · intro number hslot
    simp [LuajitGetFlowint, hld, hf, LuaStateGetFlow, lua_arg, lua_isnumber,
      lua_tonumber, hid, tableGet, hid0, hid1, hidx, not_lt.mpr hid0, not_le.mpr hid1,
      hslot]
  · intro hslot
    simp [LuajitGetFlowint, hld, hf, LuaStateGetFlow, lua_arg, lua_isnumber,
      lua_tonumber, hid, tableGet, hid0, hid1, hidx, not_lt.mpr hid0, not_le.mpr hid1,
      hslot]

/-- Closed form of `ScFlowintIncr` on a bound id whose slot is absent or an integer. -/
theorem LuajitIncrFlowint_ok (E : Env) (L : LuaState) (W : World) (ld : DetectLuajitData)
    (f : Nat) (id : Int) (rest : List LuaValue)
    (hld : L.ld = some ld) (hf : L.flow = some f)
    (hid0 : 0 ≤ id) (hid1 : id < E.DETECT_LUAJIT_MAX_FLOWINTS)
    (hidx : ld.flowint id.toNat ≠ 0)
    (hslot : ∀ value value_len,
      FlowVarGet W f (ld.flowint id.toNat) ≠ some (FlowVar.fv_str value value_len)) :
    LuajitIncrFlowint E L (LuaValue.number id :: rest) W =
      { out := Outcome.returned [LuaValue.number
          (Int.ofNat (incrValue (FlowVarGet W f (ld.flowint id.toNat))))],
        world := setSlot W f (ld.flowint id.toNat)
          (FlowVar.fv_int (incrValue (FlowVarGet W f (ld.flowint id.toNat)))),
        trace := [Event.tableRead Namespace.flowint id] ++ rdlockIf E L.flow_lock f ++
          [Event.slotRead f (ld.flowint id.toNat),
            Event.slotWrite f (ld.flowint id.toNat)] ++ unlockIf E L.flow_lock f } := by
  have hid : toCInt id = id := toCInt_eq hid0 hid1 E.flowints_int
  cases hs : FlowVarGet W f (ld.flowint id.toNat) with
  | none =>
    simp [LuajitIncrFlowint, hld, hf, LuaStateGetFlow, lua_arg, lua_isnumber,
      lua_tonumber, hid, tableGet, hid0, hid1, hidx, not_lt.mpr hid0, not_le.mpr hid1,
      hs, incrValue, FlowVarAddIntNoLock]
  | some fv =>
    cases fv with
    | fv_str value value_len => exact absurd hs (hslot value value_len)
    | fv_int value =>
      simp [LuajitIncrFlowint, hld, hf, LuaStateGetFlow, lua_arg, lua_isnumber,
        lua_tonumber, hid, tableGet, hid0, hid1, hidx, not_lt.mpr hid0, not_le.mpr hid1,
        hs, incrValue, FlowVarAddIntNoLock]

/-- Closed form of `ScFlowintDecr` on a bound id whose slot is absent or an integer. -/
theorem LuajitDecrFlowint_ok (E : Env) (L : LuaState) (W : World) (ld : DetectLuajitData)
    (f : Nat) (id : Int) (rest : List LuaValue)
    (hld : L.ld = some ld) (hf : L.flow = some f)
    (hid0 : 0 ≤ id) (hid1 : id < E.DETECT_LUAJIT_MAX_FLOWINTS)
    (hidx : ld.flowint id.toNat ≠ 0)
    (hslot : ∀ value value_len,
      FlowVarGet W f (ld.flowint id.toNat) ≠ some (FlowVar.fv_str value value_len)) :
    LuajitDecrFlowint E L (LuaValue.number id :: rest) W =
      { out := Outcome.returned [LuaValue.number
          (Int.ofNat (decrValue (FlowVarGet W f (ld.flowint id.toNat))))],
        world := setSlot W f (ld.flowint id.toNat)
          (FlowVar.fv_int (decrValue (FlowVarGet W f (ld.flowint id.toNat)))),
        trace := [Event.tableRead Namespace.flowint id] ++ rdlockIf E L.flow_lock f ++
          [Event.slotRead f (ld.flowint id.toNat),
            Event.slotWrite f (ld.flowint id.toNat)] ++ unlockIf E L.flow_lock f } := by
  have hid : toCInt id = id := toCInt_eq hid0 hid1 E.flowints_int
  cases hs : FlowVarGet W f (ld.flowint id.toNat) with
  | none =>
    simp [LuajitDecrFlowint, hld, hf, LuaStateGetFlow, lua_arg, lua_isnumber,
      lua_tonumber, hid, tableGet, hid0, hid1, hidx, not_lt.mpr hid0, not_le.mpr hid1,
      hs, decrValue, FlowVarAddIntNoLock]
  | some fv =>
    cases fv with
    | fv_str value value_len => exact absurd hs (hslot value value_len)
    | fv_int value =>
      simp [LuajitDecrFlowint, hld, hf, LuaStateGetFlow, lua_arg, lua_isnumber,
        lua_tonumber, hid, tableGet, hid0, hid1, hidx, not_lt.mpr hid0, not_le.mpr hid1,
        hs, decrValue, FlowVarAddIntNoLock]

/-! ## String variables: round trip, overwrite, length boundary -/

/-- C1: string round trip. Whenever `ScFlowvarSet (id, v, n)` succeeds with a declared
length `n` at most the length of `v`, a following `ScFlowvarGet (id)` on the same flow
returns exactly the first `n` bytes of `v`, a string of length exactly `n` (embedded NUL
bytes included); the zero-padded temporary buffer does not show in the result. -/
theorem C1_string_round_trip (E : Env) (L : LuaState) (W : World) (id n : Int)
    (v : List Byte) (hv : n ≤ (v.length : Int))
    (hset : (LuajitSetFlowvar E L
      [LuaValue.number id, LuaValue.string v, LuaValue.number n] W).out =
        Outcome.returned []) :
    (LuajitGetFlowvar E L [LuaValue.number id]
      (LuajitSetFlowvar E L
        [LuaValue.number id, LuaValue.string v, LuaValue.number n] W).world).out =
      Outcome.returned [LuaValue.string (v.take n.toNat)]
    ∧ ((v.take n.toNat).length : Int) = n := by
  refine ⟨get_after_set E L W id n v hv hset, ?_⟩
  obtain ⟨_, _, _, _, _, _, _, _, _, hn0, _, _, _⟩ :=
    LuajitSetFlowvar_success E L W id n v hset
  simp only [List.length_take]
  omega

/-- C1 at a concrete input: the three bytes `a`, NUL, `c` stored under id 0 come back
unchanged. -/
theorem C1_string_round_trip_witness :
    (LuajitGetFlowvar env15 lua0 [LuaValue.number 0]
      (LuajitSetFlowvar env15 lua0
        [LuaValue.number 0, LuaValue.string [97, 0, 99], LuaValue.number 3] world0).world).out =
      Outcome.returned [LuaValue.string (List.take (3 : Int).toNat [97, 0, 99])]
    ∧ (((List.take (3 : Int).toNat ([97, 0, 99] : List Byte)).length : Nat) : Int) = 3 :=
  C1_string_round_trip env15 lua0 world0 0 3 [97, 0, 99] (by decide) (by decide)

/-- C2: string overwrite. When `ScFlowvarSet (id, v1, |v1|)` and then
`ScFlowvarSet (id, v2, |v2|)` succeed on a flow, `ScFlowvarGet (id)` returned `v1` in
between and returns exactly `v2` afterwards, whatever the two lengths are. -/
theorem C2_string_overwrite (E : Env) (L : LuaState) (W : World) (id : Int)
    (v1 v2 : List Byte)
    (h1 : (LuajitSetFlowvar E L
      [LuaValue.number id, LuaValue.string v1, LuaValue.number v1.length] W).out =
        Outcome.returned [])
    (h2 : (LuajitSetFlowvar E L
      [LuaValue.number id, LuaValue.string v2, LuaValue.number v2.length]
      (LuajitSetFlowvar E L
        [LuaValue.number id, LuaValue.string v1, LuaValue.number v1.length] W).world).out =
        Outcome.returned []) :
    (LuajitGetFlowvar E L [LuaValue.number id]
      (LuajitSetFlowvar E L
        [LuaValue.number id, LuaValue.string v1, LuaValue.number v1.length] W).world).out =
      Outcome.returned [LuaValue.string v1]
    ∧ (LuajitGetFlowvar E L [LuaValue.number id]
      (LuajitSetFlowvar E L
        [LuaValue.number id, LuaValue.string v2, LuaValue.number v2.length]
        (LuajitSetFlowvar E L
          [LuaValue.number id, LuaValue.string v1, LuaValue.number v1.length] W).world).world).out =
      Outcome.returned [LuaValue.string v2] := by
  have e1 := get_after_set E L W id v1.length v1 (le_refl _) h1
  have e2 := get_after_set E L _ id v2.length v2 (le_refl _) h2
  simp only [Int.toNat_ofNat, List.take_length] at e1 e2
  exact ⟨e1, e2⟩

/-- C2 at a concrete input: `abcd` overwritten by the shorter `xy` reads back as `xy`. -/
theorem C2_string_overwrite_witness :
    (LuajitGetFlowvar env15 lua0 [LuaValue.number 0]
      (LuajitSetFlowvar env15 lua0
        [LuaValue.number 0, LuaValue.string [97, 98, 99, 100],
          LuaValue.number ([97, 98, 99, 100] : List Byte).length] world0).world).out =
      Outcome.returned [LuaValue.string [97, 98, 99, 100]]
    ∧ (LuajitGetFlowvar env15 lua0 [LuaValue.number 0]
      (LuajitSetFlowvar env15 lua0
        [LuaValue.number 0, LuaValue.string [120, 121],
          LuaValue.number ([120, 121] : List Byte).length]
        (LuajitSetFlowvar env15 lua0
          [LuaValue.number 0, LuaValue.string [97, 98, 99, 100],
            LuaValue.number ([97, 98, 99, 100] : List Byte).length] world0).world).world).out =
      Outcome.returned [LuaValue.string [120, 121]] :=
  C2_string_overwrite env15 lua0 world0 0 [97, 98, 99, 100] [120, 121] (by decide)
    (by decide)

/-- C3: length boundary of `ScFlowvarSet`. With context, flow, an in-range id and a
string value present, every declared length above 65535 fails with
`(nil, "len out of range: max 64k")` and leaves the store alone; a declared length of
exactly 65535, with a bound id, a value of at least 65535 bytes and the allocation
served, succeeds and stores a slot of length 65535 holding the first 65535 bytes. -/
theorem C3_length_boundary (E : Env) (L : LuaState) (W : World) (ld : DetectLuajitData)
    (dc f : Nat) (id : Int) (v : List Byte)
    (hld : L.ld = some ld) (hdc : L.det_ctx = some dc) (hf : L.flow = some f)
    (hid0 : 0 ≤ id) (hid1 : id < E.DETECT_LUAJIT_MAX_FLOWVARS) :
    (∀ n : Int, 65535 < n →
      LuajitSetFlowvar E L [LuaValue.number id, LuaValue.string v, LuaValue.number n] W =
        failWith W [] "len out of range: max 64k")
    ∧ (ld.flowvar id.toNat ≠ 0 → 65535 ≤ v.length → W.malloc_ok 65536 = true →
      (LuajitSetFlowvar E L
        [LuaValue.number id, LuaValue.string v, LuaValue.number 65535] W).out =
          Outcome.returned []
      ∧ ∃ value, FlowVarGet
          (LuajitSetFlowvar E L
            [LuaValue.number id, LuaValue.string v, LuaValue.number 65535] W).world
          f (ld.flowvar id.toNat) = some (FlowVar.fv_str value 65535)
        ∧ value.take 65535 = v.take 65535) := by
  have hid : toCInt id = id := toCInt_eq hid0 hid1 E.flowvars_int
  constructor
  · intro n hn
    have hbad : toCInt n < 0 ∨ 65535 < toCInt n := by
      unfold toCInt
      split <;> omega
    simp [LuajitSetFlowvar, hld, hdc, hf, LuaStateGetFlow, lua_arg, lua_isnumber,
      lua_tonumber, lua_isstring, lua_tostring, hid, not_lt.mpr hid0, not_le.mpr hid1,
      hbad]
  · intro hidx hv hm
    have h := LuajitSetFlowvar_ok E L W ld dc f id 65535 v hld hdc hf hid0 hid1 hidx
      (by decide) (by decide) (by simp; omega) (by simpa using hm)
    rw [h]
    refine ⟨rfl, _, FlowVarGet_setSlot_same _ _ _ _, ?_⟩
    exact stored_take v _ 65535 hv

/-- C3 at a concrete input: a value of 65535 bytes under the bound id 0; the declared
length 65536 is refused and 65535 is stored. -/
theorem C3_length_boundary_witness :
    LuajitSetFlowvar env15 lua0
      [LuaValue.number 0, LuaValue.string (List.replicate 65535 97),
        LuaValue.number 65536] world0 =
        failWith world0 [] "len out of range: max 64k"
    ∧ (LuajitSetFlowvar env15 lua0
        [LuaValue.number 0, LuaValue.string (List.replicate 65535 97),
          LuaValue.number 65535] world0).out = Outcome.returned []
    ∧ ∃ value, FlowVarGet
          (LuajitSetFlowvar env15 lua0
            [LuaValue.number 0, LuaValue.string (List.replicate 65535 97),
              LuaValue.number 65535] world0).world
          1 (ld0.flowvar (0 : Int).toNat) = some (FlowVar.fv_str value 65535)
        ∧ value.take 65535 = (List.replicate 65535 (97 : Byte)).take 65535 :=
  ⟨(C3_length_boundary env15 lua0 world0 ld0 0 1 0 (List.replicate 65535 97)
      rfl rfl rfl (by decide) (by decide)).1 65536 (by decide),
    (C3_length_boundary env15 lua0 world0 ld0 0 1 0 (List.replicate 65535 97)
      rfl rfl rfl (by decide) (by decide)).2 (by decide)
      (by rw [List.length_replicate]) rfl⟩

/-! ## Identifier resolution: out-of-range and unbound ids -/

theorem toCInt_out_of_range {x c : Int} (h : x < 0 ∨ c ≤ x) :
    toCInt x < 0 ∨ c ≤ toCInt x := by
  unfold toCInt
  split <;> omega

/-- With context and flow present, an id below 0 or at or above the bound an accessor
compares with makes it return the out-of-range failure before the identifier table is
read: `DETECT_LUAJIT_MAX_FLOWVARS` in `LuajitGetFlowvar` and `LuajitSetFlowvar`,
`DETECT_LUAJIT_MAX_FLOWINTS` in `LuajitGetFlowint`, `LuajitIncrFlowint` and
`LuajitDecrFlowint`, and `DETECT_LUAJIT_MAX_FLOWVARS` again in `LuajitSetFlowint`. -/
theorem out_of_range_rejected (E : Env) (L : LuaState) (W : World)
    (ld : DetectLuajitData) (dc f : Nat) (id : Int) (rest : List LuaValue)
    (hld : L.ld = some ld) (hdc : L.det_ctx = some dc) (hf : L.flow = some f) :
    ((id < 0 ∨ E.DETECT_LUAJIT_MAX_FLOWVARS ≤ id) →
      LuajitGetFlowvar E L (LuaValue.number id :: rest) W =
        failWith W [] "flowvar id out of range"
      ∧ LuajitSetFlowvar E L (LuaValue.number id :: rest) W =
        failWith W [] "flowvar id out of range"
      ∧ LuajitSetFlowint E L (LuaValue.number id :: rest) W =
        failWith W [] "flowint id out of range")
    ∧ ((id < 0 ∨ E.DETECT_LUAJIT_MAX_FLOWINTS ≤ id) →
      LuajitGetFlowint E L (LuaValue.number id :: rest) W =
        failWith W [] "flowint id out of range"
      ∧ LuajitIncrFlowint E L (LuaValue.number id :: rest) W =
        failWith W [] "flowint id out of range"
      ∧ LuajitDecrFlowint E L (LuaValue.number id :: rest) W =
        failWith W [] "flowint id out of range") := by
  constructor
  · intro h
    have hb := toCInt_out_of_range h
    refine ⟨?_, ?_, ?_⟩
    · simp [LuajitGetFlowvar, hld, hf, LuaStateGetFlow, lua_arg, lua_isnumber,
        lua_tonumber, hb]
    · simp [LuajitSetFlowvar, hld, hdc, hf, LuaStateGetFlow, lua_arg, lua_isnumber,
        lua_tonumber, hb]
    · simp [LuajitSetFlowint, hld, hdc, hf, LuaStateGetFlow, lua_arg, lua_isnumber,
        lua_tonumber, hb]
  · intro h
    have hb := toCInt_out_of_range h
    refine ⟨?_, ?_, ?_⟩
    · simp [LuajitGetFlowint, hld, hf, LuaStateGetFlow, lua_arg, lua_isnumber,
        lua_tonumber, hb]
    · simp [LuajitIncrFlowint, hld, hf, LuaStateGetFlow, lua_arg, lua_isnumber,
        lua_tonumber, hb]
    · simp [LuajitDecrFlowint, hld, hf, LuaStateGetFlow, lua_arg, lua_isnumber,
        lua_tonumber, hb]

/-- C4: out-of-range ids, evaluated where the code departs from it. In a build with
`DETECT_LUAJIT_MAX_FLOWVARS = 16` and `DETECT_LUAJIT_MAX_FLOWINTS = 15`, the id 15 is
out of range for the integer namespace, `ScFlowintGet (15)` refuses it, and
`ScFlowintSet (15, 7)` does not: it passes the range check, which compares with the
string namespace's bound, and reads `ld->flowint[15]`, one entry past the table. -/
theorem C4_out_of_range_ids :
    envSkew.DETECT_LUAJIT_MAX_FLOWINTS ≤ 15
    ∧ (LuajitGetFlowint envSkew lua0 [LuaValue.number 15] world0).out =
        Outcome.returned [LuaValue.nil, lua_pushstring "flowint id out of range"]
    ∧ (LuajitSetFlowint envSkew lua0 [LuaValue.number 15, LuaValue.number 7] world0).out ≠
        Outcome.returned [LuaValue.nil, lua_pushstring "flowint id out of range"]
    ∧ (LuajitSetFlowint envSkew lua0 [LuaValue.number 15, LuaValue.number 7] world0).out =
        Outcome.undefined (Fault.tableOverrun Namespace.flowint 15) := by
  decide

theorem incrValue_int (old : Nat) (h : old ≤ 4294967295) :
    incrValue (some (FlowVar.fv_int old)) = min (old + 1) 4294967295 := by
  simp only [incrValue, UINT_MAX]
  split <;> omega

theorem decrValue_int (old : Nat) :
    decrValue (some (FlowVar.fv_int old)) = old - 1 := by
  simp only [decrValue]
  split <;> omega

/-- C6: increment step. On a flow and a bound integer id, `ScFlowintIncr` stores and
returns 1 when the slot is absent, and stores and returns `min (old + 1, 4294967295)`
when the slot holds the 32-bit value `old`; a following `ScFlowintGet` returns the same
number. -/
theorem C6_increment_step (E : Env) (L : LuaState) (W : World) (ld : DetectLuajitData)
    (f : Nat) (id : Int)
    (hld : L.ld = some ld) (hf : L.flow = some f)
    (hid0 : 0 ≤ id) (hid1 : id < E.DETECT_LUAJIT_MAX_FLOWINTS)
    (hidx : ld.flowint id.toNat ≠ 0) :
    (FlowVarGet W f (ld.flowint id.toNat) = none →
      (LuajitIncrFlowint E L [LuaValue.number id] W).out =
        Outcome.returned [LuaValue.number 1]
      ∧ FlowVarGet (LuajitIncrFlowint E L [LuaValue.number id] W).world f
          (ld.flowint id.toNat) = some (FlowVar.fv_int 1)
      ∧ (LuajitGetFlowint E L [LuaValue.number id]
          (LuajitIncrFlowint E L [LuaValue.number id] W).world).out =
        Outcome.returned [LuaValue.number 1])
    ∧ (∀ old : Nat, old ≤ 4294967295 →
      FlowVarGet W f (ld.flowint id.toNat) = some (FlowVar.fv_int old) →
      (LuajitIncrFlowint E L [LuaValue.number id] W).out =
        Outcome.returned [LuaValue.number ((min (old + 1) 4294967295 : Nat) : Int)]
      ∧ FlowVarGet (LuajitIncrFlowint E L [LuaValue.number id] W).world f
          (ld.flowint id.toNat) = some (FlowVar.fv_int (min (old + 1) 4294967295))
      ∧ (LuajitGetFlowint E L [LuaValue.number id]
          (LuajitIncrFlowint E L [LuaValue.number id] W).world).out =
        Outcome.returned [LuaValue.number ((min (old + 1) 4294967295 : Nat) : Int)]) := by
  constructor
  · intro hs
    rw [LuajitIncrFlowint_ok E L W ld f id [] hld hf hid0 hid1 hidx (by simp [hs])]
    rw [(LuajitGetFlowint_ok E L _ ld f id [] hld hf hid0 hid1 hidx).1 _
      (FlowVarGet_setSlot_same _ _ _ _)]
    simp [hs, incrValue]
  · intro old hold hs
    rw [LuajitIncrFlowint_ok E L W ld f id [] hld hf hid0 hid1 hidx (by simp [hs])]
    rw [(LuajitGetFlowint_ok E L _ ld f id [] hld hf hid0 hid1 hidx).1 _
      (FlowVarGet_setSlot_same _ _ _ _)]
    simp only [hs, incrValue_int old hold, FlowVarGet_setSlot_same]
    simp

/-- C6 at a concrete input: the bound id 0 on a flow without slots, then once more. -/
theorem C6_increment_step_witness :
    (LuajitIncrFlowint env15 lua0 [LuaValue.number 0] world0).out =
        Outcome.returned [LuaValue.number 1]
      ∧ FlowVarGet (LuajitIncrFlowint env15 lua0 [LuaValue.number 0] world0).world 1
          (ld0.flowint (0 : Int).toNat) = some (FlowVar.fv_int 1)
      ∧ (LuajitGetFlowint env15 lua0 [LuaValue.number 0]
          (LuajitIncrFlowint env15 lua0 [LuaValue.number 0] world0).world).out =
        Outcome.returned [LuaValue.number 1] :=
  (C6_increment_step env15 lua0 world0 ld0 1 0 rfl rfl (by decide) (by decide)
    (by decide)).1 rfl

/-- The slot after `n + 1` increments from an absent slot. -/
theorem incrTimes_slot (E : Env) (L : LuaState) (W : World) (ld : DetectLuajitData)
    (f : Nat) (id : Int)
    (hld : L.ld = some ld) (hf : L.flow = some f)
    (hid0 : 0 ≤ id) (hid1 : id < E.DETECT_LUAJIT_MAX_FLOWINTS)
    (hidx : ld.flowint id.toNat ≠ 0)
    (habs : FlowVarGet W f (ld.flowint id.toNat) = none) (n : Nat) :
    FlowVarGet (incrTimes E L [LuaValue.number id] (n + 1) W) f (ld.flowint id.toNat) =
      some (FlowVar.fv_int (min (n + 1) 4294967295)) := by
  induction n with
  | zero =>
    simp only [incrTimes]
    rw [LuajitIncrFlowint_ok E L W ld f id [] hld hf hid0 hid1 hidx (by simp [habs])]
    simp [habs, incrValue]
  | succ k ih =>
    rw [incrTimes]
    rw [LuajitIncrFlowint_ok E L _ ld f id [] hld hf hid0 hid1 hidx (by simp [ih])]
    simp only [FlowVarGet_setSlot_same, ih]
    rw [incrValue_int _ (Nat.min_le_right _ _)]
    congr 2
    omega

/-- C7: saturation under iteration. Starting from an absent slot of a bound integer id,
`n >= 1` consecutive `ScFlowintIncr` calls leave the stored value `min (n, 4294967295)`;
`UINT32_MAX + 2` calls leave `UINT32_MAX`, and the stored value is never 0. -/
theorem C7_increment_saturates (E : Env) (L : LuaState) (W : World)
    (ld : DetectLuajitData) (f : Nat) (id : Int)
    (hld : L.ld = some ld) (hf : L.flow = some f)
    (hid0 : 0 ≤ id) (hid1 : id < E.DETECT_LUAJIT_MAX_FLOWINTS)
    (hidx : ld.flowint id.toNat ≠ 0)
    (habs : FlowVarGet W f (ld.flowint id.toNat) = none) :
    (∀ n : Nat, 1 ≤ n →
      FlowVarGet (incrTimes E L [LuaValue.number id] n W) f (ld.flowint id.toNat) =
        some (FlowVar.fv_int (min n 4294967295)))
    ∧ FlowVarGet (incrTimes E L [LuaValue.number id] (4294967295 + 2) W) f
        (ld.flowint id.toNat) = some (FlowVar.fv_int 4294967295)
    ∧ (∀ n : Nat, 1 ≤ n →
      FlowVarGet (incrTimes E L [LuaValue.number id] n W) f (ld.flowint id.toNat) ≠
        some (FlowVar.fv_int 0)) := by
  have key : ∀ n : Nat, 1 ≤ n →
      FlowVarGet (incrTimes E L [LuaValue.number id] n W) f (ld.flowint id.toNat) =
        some (FlowVar.fv_int (min n 4294967295)) := by
    intro n hn
    obtain ⟨k, rfl⟩ : ∃ k, n = k + 1 := ⟨n - 1, by omega⟩
    exact incrTimes_slot E L W ld f id hld hf hid0 hid1 hidx habs k
  refine ⟨key, ?_, ?_⟩
  · rw [key _ (by omega)]
    rfl
  · intro n hn
    rw [key n hn]
    intro h
    have h2 : min n 4294967295 = 0 := by
      injection h with h1
      injection h1
    omega

/-- C7 at a concrete input: three increments of the bound id 0 on a flow without
slots. -/
theorem C7_increment_saturates_witness :
    FlowVarGet (incrTimes env15 lua0 [LuaValue.number 0] 3 world0) 1
      (ld0.flowint (0 : Int).toNat) = some (FlowVar.fv_int (min 3 4294967295)) :=
  (C7_increment_saturates env15 lua0 world0 ld0 1 0 rfl rfl (by decide) (by decide)
    (by decide) rfl).1 3 (by decide)

/-- C8: decrement step and floor. On a flow and a bound integer id, `ScFlowintDecr`
stores and returns 0 when the slot is absent, after which `ScFlowintGet` succeeds with
0; it stores and returns 0 when the slot holds 0, and `old - 1` when it holds `old > 0`;
the result never exceeds the prior value. -/
theorem C8_decrement_step (E : Env) (L : LuaState) (W : World) (ld : DetectLuajitData)
    (f : Nat) (id : Int)
    (hld : L.ld = some ld) (hf : L.flow = some f)
    (hid0 : 0 ≤ id) (hid1 : id < E.DETECT_LUAJIT_MAX_FLOWINTS)
    (hidx : ld.flowint id.toNat ≠ 0) :
    (FlowVarGet W f (ld.flowint id.toNat) = none →
      (LuajitDecrFlowint E L [LuaValue.number id] W).out =
        Outcome.returned [LuaValue.number 0]
      ∧ FlowVarGet (LuajitDecrFlowint E L [LuaValue.number id] W).world f
          (ld.flowint id.toNat) = some (FlowVar.fv_int 0)
      ∧ (LuajitGetFlowint E L [LuaValue.number id]
          (LuajitDecrFlowint E L [LuaValue.number id] W).world).out =
        Outcome.returned [LuaValue.number 0])
    ∧ (FlowVarGet W f (ld.flowint id.toNat) = some (FlowVar.fv_int 0) →
      (LuajitDecrFlowint E L [LuaValue.number id] W).out =
        Outcome.returned [LuaValue.number 0]
      ∧ FlowVarGet (LuajitDecrFlowint E L [LuaValue.number id] W).world f
          (ld.flowint id.toNat) = some (FlowVar.fv_int 0))
    ∧ (∀ old : Nat, 0 < old →
      FlowVarGet W f (ld.flowint id.toNat) = some (FlowVar.fv_int old) →
      (LuajitDecrFlowint E L [LuaValue.number id] W).out =
        Outcome.returned [LuaValue.number ((old : Int) - 1)]
      ∧ FlowVarGet (LuajitDecrFlowint E L [LuaValue.number id] W).world f
          (ld.flowint id.toNat) = some (FlowVar.fv_int (old - 1))
      ∧ old - 1 < old) := by
  refine ⟨?_, ?_, ?_⟩
  · intro hs
    rw [LuajitDecrFlowint_ok E L W ld f id [] hld hf hid0 hid1 hidx (by simp [hs])]
    rw [(LuajitGetFlowint_ok E L _ ld f id [] hld hf hid0 hid1 hidx).1 _
      (FlowVarGet_setSlot_same _ _ _ _)]
    simp [hs, decrValue]
  · intro hs
    rw [LuajitDecrFlowint_ok E L W ld f id [] hld hf hid0 hid1 hidx (by simp [hs])]
    simp [hs, decrValue]
  · intro old hold hs
    rw [LuajitDecrFlowint_ok E L W ld f id [] hld hf hid0 hid1 hidx (by simp [hs])]
    simp only [hs, decrValue_int, FlowVarGet_setSlot_same]
    have e : Int.ofNat (old - 1) = (old : Int) - 1 := by
      simp only [Int.ofNat_eq_coe]
      omega
    rw [e]
    exact ⟨rfl, trivial, by omega⟩

/-- C8 at a concrete input: a decrement of the bound id 0 on a flow without slots. -/
theorem C8_decrement_step_witness :
    (LuajitDecrFlowint env15 lua0 [LuaValue.number 0] world0).out =
        Outcome.returned [LuaValue.number 0]
      ∧ FlowVarGet (LuajitDecrFlowint env15 lua0 [LuaValue.number 0] world0).world 1
          (ld0.flowint (0 : Int).toNat) = some (FlowVar.fv_int 0)
      ∧ (LuajitGetFlowint env15 lua0 [LuaValue.number 0]
          (LuajitDecrFlowint env15 lua0 [LuaValue.number 0] world0).world).out =
        Outcome.returned [LuaValue.number 0] :=
  (C8_decrement_step env15 lua0 world0 ld0 1 0 rfl rfl (by decide) (by decide)
    (by decide)).1 rfl

/-- With context, flow and an in-range id present, `ScFlowintSet` refuses every negative
value and leaves the store alone. -/
theorem setFlowint_negative_rejected (E : Env) (L : LuaState) (W : World)
    (ld : DetectLuajitData) (dc f : Nat) (id v : Int)
    (hld : L.ld = some ld) (hdc : L.det_ctx = some dc) (hf : L.flow = some f)
    (hid0 : 0 ≤ id) (hid1 : id < E.DETECT_LUAJIT_MAX_FLOWVARS) (hv : v < 0) :
    LuajitSetFlowint E L [LuaValue.number id, LuaValue.number v] W =
      failWith W [] "value out of range, value must be unsigned 32bit int" := by
  have hid : toCInt id = id := toCInt_eq hid0 hid1 E.flowvars_int
  simp [LuajitSetFlowint, hld, hdc, hf, LuaStateGetFlow, lua_arg, lua_isnumber,
    lua_tonumber, hid, not_lt.mpr hid0, not_le.mpr hid1, hv]

/-- C9: the value check of `ScFlowintSet`, evaluated where the code departs from it.
With context, flow and the bound id 0, the value 4294967296 is above `UINT32_MAX`; the
call does not fail with the range message: it returns no value (success) and stores a
slot, since the upper comparison tests `id`, not the value. -/
theorem C9_set_value_range :
    (4294967295 : Int) < 4294967296
    ∧ (LuajitSetFlowint env15 lua0
        [LuaValue.number 0, LuaValue.number 4294967296] world0).out ≠
      Outcome.returned [LuaValue.nil,
        lua_pushstring "value out of range, value must be unsigned 32bit int"]
    ∧ (LuajitSetFlowint env15 lua0
        [LuaValue.number 0, LuaValue.number 4294967296] world0).out = Outcome.returned []
    ∧ FlowVarGet world0 1 7 = none
    ∧ FlowVarGet (LuajitSetFlowint env15 lua0
        [LuaValue.number 0, LuaValue.number 4294967296] world0).world 1 7 =
      some (FlowVar.fv_int 0) := by
  decide

theorem toU32_of_u32 (v : Int) (h0 : 0 ≤ v) (h1 : v ≤ 4294967295) :
    Int.ofNat (toU32 v) = v := by
  unfold toU32
  rw [if_pos (by omega), Int.emod_eq_of_lt h0 (by omega)]
  simp only [Int.ofNat_eq_coe]
  omega

/-- Integer Set and Get on an id that passes the range check of both accessors: with a
bound integer id below `DETECT_LUAJIT_MAX_FLOWINTS` and below
`DETECT_LUAJIT_MAX_FLOWVARS`, `ScFlowintSet (id, v)` with `0 <= v <= 4294967295`
succeeds whatever the slot held before and a following `ScFlowintGet (id)` returns
exactly `v`; `ScFlowintGet` on a bound id whose slot is absent fails with
`(nil, "no flow var")`. -/
theorem flowint_set_then_get (E : Env) (L : LuaState) (W : World) (ld : DetectLuajitData)
    (dc f : Nat) (id : Int)
    (hld : L.ld = some ld) (hdc : L.det_ctx = some dc) (hf : L.flow = some f)
    (hid0 : 0 ≤ id) (hid1 : id < E.DETECT_LUAJIT_MAX_FLOWINTS)
    (hid2 : id < E.DETECT_LUAJIT_MAX_FLOWVARS)
    (hidx : ld.flowint id.toNat ≠ 0) :
    (∀ v : Int, 0 ≤ v → v ≤ 4294967295 →
      (LuajitSetFlowint E L [LuaValue.number id, LuaValue.number v] W).out =
        Outcome.returned []
      ∧ (LuajitGetFlowint E L [LuaValue.number id]
          (LuajitSetFlowint E L [LuaValue.number id, LuaValue.number v] W).world).out =
        Outcome.returned [LuaValue.number v])
    ∧ (FlowVarGet W f (ld.flowint id.toNat) = none →
      (LuajitGetFlowint E L [LuaValue.number id] W).out =
        Outcome.returned [LuaValue.nil, lua_pushstring "no flow var"]) := by
  constructor
  · intro v hv0 hv1
    rw [LuajitSetFlowint_ok E L W ld dc f id v hld hdc hf hid0 hid2 hid1 hidx hv0]
    rw [(LuajitGetFlowint_ok E L _ ld f id [] hld hf hid0 hid1 hidx).1 _
      (FlowVarGet_setSlot_same _ _ _ _)]
    simp only [toU32_of_u32 v hv0 hv1]
    exact ⟨trivial, trivial⟩
  · intro hs
    rw [(LuajitGetFlowint_ok E L W ld f id [] hld hf hid0 hid1 hidx).2 hs]
    rfl

/-- C11: the bound `ScFlowintSet` checks ids against, evaluated where the code departs
from the claim. With 16 string ids and 15 integer ids, id 15 is refused by
`ScFlowintGet`, `ScFlowintIncr` and `ScFlowintDecr` and accepted by `ScFlowintSet`,
which then reads `ld->flowint[15]` past the table; with 15 string ids and 16 integer
ids, the bound id 15 is accepted by `ScFlowintGet` and `ScFlowintIncr` and refused by
`ScFlowintSet`. -/
theorem C11_set_flowint_bound :
    ((LuajitGetFlowint envSkew lua0 [LuaValue.number 15] world0).out =
        Outcome.returned [LuaValue.nil, lua_pushstring "flowint id out of range"]
      ∧ (LuajitIncrFlowint envSkew lua0 [LuaValue.number 15] world0).out =
        Outcome.returned [LuaValue.nil, lua_pushstring "flowint id out of range"]
      ∧ (LuajitDecrFlowint envSkew lua0 [LuaValue.number 15] world0).out =
        Outcome.returned [LuaValue.nil, lua_pushstring "flowint id out of range"]
      ∧ (LuajitSetFlowint envSkew lua0
          [LuaValue.number 15, LuaValue.number 7] world0).out =
        Outcome.undefined (Fault.tableOverrun Namespace.flowint 15))
    ∧ ((LuajitGetFlowint envSkewInt lua15 [LuaValue.number 15] world0).out =
        Outcome.returned [LuaValue.nil, lua_pushstring "no flow var"]
      ∧ (LuajitIncrFlowint envSkewInt lua15 [LuaValue.number 15] world0).out =
        Outcome.returned [LuaValue.number 1]
      ∧ (LuajitSetFlowint envSkewInt lua15
          [LuaValue.number 15, LuaValue.number 7] world0).out =
        Outcome.returned [LuaValue.nil, lua_pushstring "flowint id out of range"]) := by
  decide

/-! ## Locking -/

/-- C12: lock-hint correctness. When the published hint is not
`LUA_FLOW_NOT_LOCKED_BY_PARENT`, none of the six accessors acquires or releases the
flow lock, for every input: the trace of the call holds no lock event (the readers and
Incr/Decr skip `FLOWLOCK_RDLOCK` / `FLOWLOCK_UNLOCK`, the Sets go through the `NoLock`
variants). -/
theorem C12_lock_hint (E : Env) (L : LuaState) (args : List LuaValue) (W : World)
    (h : L.flow_lock ≠ E.LUA_FLOW_NOT_LOCKED_BY_PARENT) :
    (∀ e ∈ (LuajitGetFlowvar E L args W).trace, e.isLock = false)
    ∧ (∀ e ∈ (LuajitSetFlowvar E L args W).trace, e.isLock = false)
    ∧ (∀ e ∈ (LuajitGetFlowint E L args W).trace, e.isLock = false)
    ∧ (∀ e ∈ (LuajitSetFlowint E L args W).trace, e.isLock = false)
    ∧ (∀ e ∈ (LuajitIncrFlowint E L args W).trace, e.isLock = false)
    ∧ (∀ e ∈ (LuajitDecrFlowint E L args W).trace, e.isLock = false) := by
  refine ⟨?_, ?_, ?_, ?_, ?_, ?_⟩
  · unfold LuajitGetFlowvar
    simp only [LuaStateGetFlow]
    repeat' split
    all_goals simp_all [failWith, faultWith, rdlockIf, unlockIf, Event.isLock]
  · unfold LuajitSetFlowvar
    simp only [LuaStateGetFlow]
    repeat' split
    all_goals simp_all [failWith, faultWith, Event.isLock, FlowVarAddStrNoLock]
  · unfold LuajitGetFlowint
    simp only [LuaStateGetFlow]
    repeat' split
    all_goals simp_all [failWith, faultWith, rdlockIf, unlockIf, Event.isLock]
  · unfold LuajitSetFlowint
    simp only [LuaStateGetFlow]
    repeat' split
    all_goals simp_all [failWith, faultWith, Event.isLock, FlowVarAddIntNoLock]
  · unfold LuajitIncrFlowint
    simp only [LuaStateGetFlow]
    repeat' split
    all_goals simp_all [failWith, faultWith, rdlockIf, unlockIf, Event.isLock,
      FlowVarAddIntNoLock]
  · unfold LuajitDecrFlowint
    simp only [LuaStateGetFlow]
    repeat' split
    all_goals simp_all [failWith, faultWith, rdlockIf, unlockIf, Event.isLock,
      FlowVarAddIntNoLock]

/-- C12 at a concrete input: the six accessors under the hint 0 (lock held by the
caller) on the bound id 0. -/
theorem C12_lock_hint_witness :
    (∀ e ∈ (LuajitGetFlowvar env15 luaLocked [LuaValue.number 0] world0).trace,
      e.isLock = false)
    ∧ (∀ e ∈ (LuajitSetFlowvar env15 luaLocked [LuaValue.number 0] world0).trace,
      e.isLock = false)
    ∧ (∀ e ∈ (LuajitGetFlowint env15 luaLocked [LuaValue.number 0] world0).trace,
      e.isLock = false)
    ∧ (∀ e ∈ (LuajitSetFlowint env15 luaLocked [LuaValue.number 0] world0).trace,
      e.isLock = false)
    ∧ (∀ e ∈ (LuajitIncrFlowint env15 luaLocked [LuaValue.number 0] world0).trace,
      e.isLock = false)
    ∧ (∀ e ∈ (LuajitDecrFlowint env15 luaLocked [LuaValue.number 0] world0).trace,
      e.isLock = false) :=
  C12_lock_hint env15 luaLocked [LuaValue.number 0] world0 (by decide)

/-- C13: the lock `ScFlowintIncr` and `ScFlowintDecr` hold while they write, evaluated
where the code departs from the claim. Under the hint `LUA_FLOW_NOT_LOCKED_BY_PARENT`,
on the bound id 0, each of the two calls takes `FLOWLOCK_RDLOCK`, reads the slot, writes
the slot and unlocks: the write happens under the shared lock and `FLOWLOCK_WRLOCK` is
never taken. -/
theorem C13_mutation_lock :
    lua0.flow_lock = env15.LUA_FLOW_NOT_LOCKED_BY_PARENT
    ∧ (LuajitIncrFlowint env15 lua0 [LuaValue.number 0] world0).trace =
      [Event.tableRead Namespace.flowint 0, Event.FLOWLOCK_RDLOCK 1,
        Event.slotRead 1 7, Event.slotWrite 1 7, Event.FLOWLOCK_UNLOCK 1]
    ∧ (LuajitDecrFlowint env15 lua0 [LuaValue.number 0] world0).trace =
      [Event.tableRead Namespace.flowint 0, Event.FLOWLOCK_RDLOCK 1,
        Event.slotRead 1 7, Event.slotWrite 1 7, Event.FLOWLOCK_UNLOCK 1]
    ∧ Event.FLOWLOCK_WRLOCK 1 ∉
      (LuajitIncrFlowint env15 lua0 [LuaValue.number 0] world0).trace
    ∧ Event.FLOWLOCK_WRLOCK 1 ∉
      (LuajitDecrFlowint env15 lua0 [LuaValue.number 0] world0).trace
    ∧ (LuajitSetFlowint env15 lua0 [LuaValue.number 0, LuaValue.number 5] world0).trace =
      [Event.tableRead Namespace.flowint 0, Event.FLOWLOCK_WRLOCK 1,
        Event.slotWrite 1 7, Event.FLOWLOCK_UNLOCK 1] := by
  decide

/-- The lock events of a read-style accessor body are balanced. -/
theorem balanced_body (E : Env) (flow_lock : Int) (f : Nat) (pre mid : List Event)
    (hpre : ∀ e ∈ pre, e.isLock = false) (hmid : ∀ e ∈ mid, e.isLock = false) :
    acquires (pre ++ rdlockIf E flow_lock f ++ mid ++ unlockIf E flow_lock f) =
      releases (pre ++ rdlockIf E flow_lock f ++ mid ++ unlockIf E flow_lock f) := by
  have hp1 : pre.countP Event.isAcquire = 0 := by
    rw [List.countP_eq_zero]
    intro e he
    have := hpre e he
    cases e <;> simp_all [Event.isLock, Event.isAcquire]
  have hp2 : pre.countP Event.isRelease = 0 := by
    rw [List.countP_eq_zero]
    intro e he
    have := hpre e he
    cases e <;> simp_all [Event.isLock, Event.isRelease]
  have hm1 : mid.countP Event.isAcquire = 0 := by
    rw [List.countP_eq_zero]
    intro e he
    have := hmid e he
    cases e <;> simp_all [Event.isLock, Event.isAcquire]
  have hm2 : mid.countP Event.isRelease = 0 := by
    rw [List.countP_eq_zero]
    intro e he
    have := hmid e he
    cases e <;> simp_all [Event.isLock, Event.isRelease]
  by_cases hl : flow_lock = E.LUA_FLOW_NOT_LOCKED_BY_PARENT
  · simp [acquires, releases, rdlockIf, unlockIf, hl, List.countP_append, hp1, hp2, hm1,
      hm2, Event.isAcquire, Event.isRelease]
  · simp [acquires, releases, rdlockIf, unlockIf, hl, List.countP_append, hp1, hp2, hm1,
      hm2]

/-- `LuajitGetFlowint` returns on every input, its lock events are balanced, and a
failure other than "no flow var" comes without a lock event. -/
theorem LuajitGetFlowint_balance (E : Env) (L : LuaState) (args : List LuaValue)
    (W : World) :
    (∃ vals, (LuajitGetFlowint E L args W).out = Outcome.returned vals)
    ∧ acquires (LuajitGetFlowint E L args W).trace =
      releases (LuajitGetFlowint E L args W).trace
    ∧ (∀ v, (LuajitGetFlowint E L args W).out = Outcome.returned [LuaValue.nil, v] →
        v ≠ lua_pushstring "no flow var" →
        ∀ e ∈ (LuajitGetFlowint E L args W).trace, e.isLock = false) := by
  by_cases hl : L.flow_lock = E.LUA_FLOW_NOT_LOCKED_BY_PARENT
  · unfold LuajitGetFlowint
    simp only [LuaStateGetFlow]
    repeat' split
    all_goals
      simp_all [failWith, faultWith, acquires, releases, rdlockIf, unlockIf,
        Event.isLock, Event.isAcquire, Event.isRelease, List.countP_cons, tableGet]
  · unfold LuajitGetFlowint
    simp only [LuaStateGetFlow]
    repeat' split
    all_goals
      simp_all [failWith, faultWith, acquires, releases, rdlockIf, unlockIf,
        Event.isLock, Event.isAcquire, Event.isRelease, List.countP_cons, tableGet]

/-- `LuajitIncrFlowint` returns on every input, its lock events are balanced, and a
failure other than "no flow var" comes without a lock event. -/
theorem LuajitIncrFlowint_balance (E : Env) (L : LuaState) (args : List LuaValue)
    (W : World) :
    (∃ vals, (LuajitIncrFlowint E L args W).out = Outcome.returned vals)
    ∧ acquires (LuajitIncrFlowint E L args W).trace =
      releases (LuajitIncrFlowint E L args W).trace
    ∧ (∀ v, (LuajitIncrFlowint E L args W).out = Outcome.returned [LuaValue.nil, v] →
        v ≠ lua_pushstring "no flow var" →
        ∀ e ∈ (LuajitIncrFlowint E L args W).trace, e.isLock = false) := by
  by_cases hl : L.flow_lock = E.LUA_FLOW_NOT_LOCKED_BY_PARENT
  · unfold LuajitIncrFlowint
    simp only [LuaStateGetFlow]
    repeat' split
    all_goals
      simp_all [failWith, faultWith, acquires, releases, rdlockIf, unlockIf,
        Event.isLock, Event.isAcquire, Event.isRelease, List.countP_cons, tableGet,
        FlowVarAddIntNoLock]
  · unfold LuajitIncrFlowint
    simp only [LuaStateGetFlow]
    repeat' split
    all_goals
      simp_all [failWith, faultWith, acquires, releases, rdlockIf, unlockIf,
        Event.isLock, Event.isAcquire, Event.isRelease, List.countP_cons, tableGet,
        FlowVarAddIntNoLock]

/-- `LuajitDecrFlowint` returns on every input, its lock events are balanced, and a
failure other than "no flow var" comes without a lock event. -/
theorem LuajitDecrFlowint_balance (E : Env) (L : LuaState) (args : List LuaValue)
    (W : World) :
    (∃ vals, (LuajitDecrFlowint E L args W).out = Outcome.returned vals)
    ∧ acquires (LuajitDecrFlowint E L args W).trace =
      releases (LuajitDecrFlowint E L args W).trace
    ∧ (∀ v, (LuajitDecrFlowint E L args W).out = Outcome.returned [LuaValue.nil, v] →
        v ≠ lua_pushstring "no flow var" →
        ∀ e ∈ (LuajitDecrFlowint E L args W).trace, e.isLock = false) := by
  by_cases hl : L.flow_lock = E.LUA_FLOW_NOT_LOCKED_BY_PARENT
  · unfold LuajitDecrFlowint
    simp only [LuaStateGetFlow]
    repeat' split
    all_goals
      simp_all [failWith, faultWith, acquires, releases, rdlockIf, unlockIf,
        Event.isLock, Event.isAcquire, Event.isRelease, List.countP_cons, tableGet,
        FlowVarAddIntNoLock]
  · unfold LuajitDecrFlowint
    simp only [LuaStateGetFlow]
    repeat' split
    all_goals
      simp_all [failWith, faultWith, acquires, releases, rdlockIf, unlockIf,
        Event.isLock, Event.isAcquire, Event.isRelease, List.countP_cons, tableGet,
        FlowVarAddIntNoLock]

/-- A call of `ScFlowvarGet` that returns has balanced lock events, and a failure other
than "no flow var" comes without a lock event. -/
theorem LuajitGetFlowvar_balance (E : Env) (L : LuaState) (args : List LuaValue)
    (W : World) (vals : List LuaValue)
    (hv : (LuajitGetFlowvar E L args W).out = Outcome.returned vals) :
    acquires (LuajitGetFlowvar E L args W).trace =
      releases (LuajitGetFlowvar E L args W).trace
    ∧ (∀ v, vals = [LuaValue.nil, v] → v ≠ lua_pushstring "no flow var" →
        ∀ e ∈ (LuajitGetFlowvar E L args W).trace, e.isLock = false) := by
  revert hv
  by_cases hl : L.flow_lock = E.LUA_FLOW_NOT_LOCKED_BY_PARENT
  · unfold LuajitGetFlowvar
    simp only [LuaStateGetFlow]
    repeat' split
    all_goals
      intro hv
      simp_all [failWith, faultWith, acquires, releases, rdlockIf, unlockIf,
        Event.isLock, Event.isAcquire, Event.isRelease, List.countP_cons]
      try (subst hv; intro v h1; simp at h1; try exact h1.symm)
  · unfold LuajitGetFlowvar
    simp only [LuaStateGetFlow]
    repeat' split
    all_goals
      intro hv
      simp_all [failWith, faultWith, acquires, releases, rdlockIf, unlockIf,
        Event.isLock, Event.isAcquire, Event.isRelease, List.countP_cons]

/-- The calls on which `ScFlowvarGet` does not return: the slot found holds the integer
member, or it is a string slot whose length exceeds its buffer. -/
theorem LuajitGetFlowvar_undefined (E : Env) (L : LuaState) (args : List LuaValue)
    (W : World) (why : Fault)
    (hv : (LuajitGetFlowvar E L args W).out = Outcome.undefined why) :
    ∃ f idx, L.flow = some f
      ∧ ((∃ n, FlowVarGet W f idx = some (FlowVar.fv_int n))
        ∨ (∃ value value_len,
            FlowVarGet W f idx = some (FlowVar.fv_str value value_len)
            ∧ value.length < value_len)) := by
  cases hld : L.ld with
  | none => simp [LuajitGetFlowvar, hld, failWith] at hv
  | some ld =>
    cases hf : L.flow with
    | none => simp [LuajitGetFlowvar, hld, hf, LuaStateGetFlow, failWith] at hv
    | some f =>
      simp only [LuajitGetFlowvar, hld, hf, LuaStateGetFlow] at hv
      split at hv
      · simp [failWith] at hv
      split at hv
      · simp [failWith] at hv
      rename_i hnum hrange
      split at hv
      · rename_i htab
        exfalso
        simp only [tableGet] at htab
        split at htab
        · simp at htab
        · rename_i hneg
          apply hneg
          constructor <;> omega
      · rename_i idx htab
        split at hv
        · simp [failWith] at hv
        split at hv
        · simp [failWith] at hv
        · rename_i n hs
          exact ⟨f, idx, rfl, Or.inl ⟨_, hs⟩⟩
        · rename_i value value_len hs
          split at hv
          · rename_i hbuf
            refine ⟨f, idx, rfl, Or.inr ⟨value, value_len, hs, ?_⟩⟩
            by_contra hle
            rw [getBuffer_eq value value_len (by omega)] at hbuf
            cases hbuf
          · simp at hv

/-- C14: lock balance. `ScFlowintGet`, `ScFlowintIncr` and `ScFlowintDecr` return on
every input, with as many lock acquisitions as releases in the trace of the call, and
when they return a failure other than "no flow var", that is a validation failure, they
have taken no lock at all. `ScFlowvarGet` does the same on every input on which it
returns, and the only calls on which it does not return are those that find a slot
holding the integer member, or a string slot whose length exceeds its buffer, where the
copy of lines 137 to 141 reads through memory that is not the slot's. -/
theorem C14_lock_balance (E : Env) (L : LuaState) (args : List LuaValue) (W : World) :
    ((∃ vals, (LuajitGetFlowint E L args W).out = Outcome.returned vals)
      ∧ acquires (LuajitGetFlowint E L args W).trace =
        releases (LuajitGetFlowint E L args W).trace
      ∧ (∀ v, (LuajitGetFlowint E L args W).out = Outcome.returned [LuaValue.nil, v] →
          v ≠ lua_pushstring "no flow var" →
          ∀ e ∈ (LuajitGetFlowint E L args W).trace, e.isLock = false))
    ∧ ((∃ vals, (LuajitIncrFlowint E L args W).out = Outcome.returned vals)
      ∧ acquires (LuajitIncrFlowint E L args W).trace =
        releases (LuajitIncrFlowint E L args W).trace
      ∧ (∀ v, (LuajitIncrFlowint E L args W).out = Outcome.returned [LuaValue.nil, v] →
          v ≠ lua_pushstring "no flow var" →
          ∀ e ∈ (LuajitIncrFlowint E L args W).trace, e.isLock = false))
    ∧ ((∃ vals, (LuajitDecrFlowint E L args W).out = Outcome.returned vals)
      ∧ acquires (LuajitDecrFlowint E L args W).trace =
        releases (LuajitDecrFlowint E L args W).trace
      ∧ (∀ v, (LuajitDecrFlowint E L args W).out = Outcome.returned [LuaValue.nil, v] →
          v ≠ lua_pushstring "no flow var" →
          ∀ e ∈ (LuajitDecrFlowint E L args W).trace, e.isLock = false))
    ∧ ((∀ vals, (LuajitGetFlowvar E L args W).out = Outcome.returned vals →
        acquires (LuajitGetFlowvar E L args W).trace =
          releases (LuajitGetFlowvar E L args W).trace
        ∧ (∀ v, vals = [LuaValue.nil, v] → v ≠ lua_pushstring "no flow var" →
            ∀ e ∈ (LuajitGetFlowvar E L args W).trace, e.isLock = false))
      ∧ (∀ why, (LuajitGetFlowvar E L args W).out = Outcome.undefined why →
        ∃ f idx, L.flow = some f
          ∧ ((∃ n, FlowVarGet W f idx = some (FlowVar.fv_int n))
            ∨ (∃ value value_len,
                FlowVarGet W f idx = some (FlowVar.fv_str value value_len)
                ∧ value.length < value_len)))) := by
  exact ⟨LuajitGetFlowint_balance E L args W, LuajitIncrFlowint_balance E L args W,
    LuajitDecrFlowint_balance E L args W,
    fun vals hv => LuajitGetFlowvar_balance E L args W vals hv,
    fun why hv => LuajitGetFlowvar_undefined E L args W why hv⟩

/-- C14 at concrete inputs: `ScFlowvarGet (0)` on a flow without slots returns
"no flow var" with one acquisition and one release, and `ScFlowintIncr (0)` on a slot
that holds the string member returns with its lock events balanced. -/
theorem C14_lock_balance_witness :
    acquires (LuajitGetFlowvar env15 lua0 [LuaValue.number 0] world0).trace =
      releases (LuajitGetFlowvar env15 lua0 [LuaValue.number 0] world0).trace
    ∧ (∃ vals, (LuajitIncrFlowint env15 lua0 [LuaValue.number 0] worldStr).out =
        Outcome.returned vals)
    ∧ acquires (LuajitIncrFlowint env15 lua0 [LuaValue.number 0] worldStr).trace =
      releases (LuajitIncrFlowint env15 lua0 [LuaValue.number 0] worldStr).trace :=
  ⟨((C14_lock_balance env15 lua0 [LuaValue.number 0] world0).2.2.2.1 _ rfl).1,
    (C14_lock_balance env15 lua0 [LuaValue.number 0] worldStr).2.1.1,
    (C14_lock_balance env15 lua0 [LuaValue.number 0] worldStr).2.1.2.1⟩

/-! ## Result shape -/

/-- The shape of what the accessors return. For every input, a call of one of the six
accessors that returns hands back either exactly two values, nil followed by a message
string (a failure), or its success shape: exactly one value, not nil, for
`ScFlowvarGet`, `ScFlowintGet`, `ScFlowintIncr` and `ScFlowintDecr`, and no value for
`ScFlowvarSet` and `ScFlowintSet`. -/
theorem accessor_result_shape (E : Env) (L : LuaState) (args : List LuaValue) (W : World) :
    (∀ vals, (LuajitGetFlowvar E L args W).out = Outcome.returned vals →
      (∃ msg : String, vals = [LuaValue.nil, lua_pushstring msg])
      ∨ (∃ v, vals = [v] ∧ v ≠ LuaValue.nil))
    ∧ (∀ vals, (LuajitGetFlowint E L args W).out = Outcome.returned vals →
      (∃ msg : String, vals = [LuaValue.nil, lua_pushstring msg])
      ∨ (∃ v, vals = [v] ∧ v ≠ LuaValue.nil))
    ∧ (∀ vals, (LuajitIncrFlowint E L args W).out = Outcome.returned vals →
      (∃ msg : String, vals = [LuaValue.nil, lua_pushstring msg])
      ∨ (∃ v, vals = [v] ∧ v ≠ LuaValue.nil))
    ∧ (∀ vals, (LuajitDecrFlowint E L args W).out = Outcome.returned vals →
      (∃ msg : String, vals = [LuaValue.nil, lua_pushstring msg])
      ∨ (∃ v, vals = [v] ∧ v ≠ LuaValue.nil))
    ∧ (∀ vals, (LuajitSetFlowvar E L args W).out = Outcome.returned vals →
      (∃ msg : String, vals = [LuaValue.nil, lua_pushstring msg]) ∨ vals = [])
    ∧ (∀ vals, (LuajitSetFlowint E L args W).out = Outcome.returned vals →
      (∃ msg : String, vals = [LuaValue.nil, lua_pushstring msg]) ∨ vals = []) := by
  refine ⟨?_, ?_, ?_, ?_, ?_, ?_⟩
  · intro vals
    unfold LuajitGetFlowvar
    simp only [LuaStateGetFlow]
    repeat' split
    all_goals
      intro hv
      first
        | (simp [faultWith] at hv; done)
        | (simp only [failWith, Outcome.returned.injEq] at hv; subst hv
           exact Or.inl ⟨_, rfl⟩)
        | (simp only [Outcome.returned.injEq] at hv; subst hv
           exact Or.inr ⟨_, rfl, by simp⟩)
  · intro vals
    unfold LuajitGetFlowint
    simp only [LuaStateGetFlow]
    repeat' split
    all_goals
      intro hv
      first
        | (simp [faultWith] at hv; done)
        | (simp only [failWith, Outcome.returned.injEq] at hv; subst hv
           exact Or.inl ⟨_, rfl⟩)
        | (simp only [Outcome.returned.injEq] at hv; subst hv
           exact Or.inr ⟨_, rfl, by simp⟩)
  · intro vals
    unfold LuajitIncrFlowint
    simp only [LuaStateGetFlow]
    repeat' split
    all_goals
      intro hv
      first
        | (simp [faultWith] at hv; done)
        | (simp only [failWith, Outcome.returned.injEq] at hv; subst hv
           exact Or.inl ⟨_, rfl⟩)
        | (simp only [Outcome.returned.injEq] at hv; subst hv
           exact Or.inr ⟨_, rfl, by simp⟩)
  · intro vals
    unfold LuajitDecrFlowint
    simp only [LuaStateGetFlow]
    repeat' split
    all_goals
      intro hv
      first
        | (simp [faultWith] at hv; done)
        | (simp only [failWith, Outcome.returned.injEq] at hv; subst hv
           exact Or.inl ⟨_, rfl⟩)
        | (simp only [Outcome.returned.injEq] at hv; subst hv
           exact Or.inr ⟨_, rfl, by simp⟩)
  · intro vals
    unfold LuajitSetFlowvar
    simp only [LuaStateGetFlow]
    repeat' split
    all_goals
      intro hv
      first
        | (simp [faultWith] at hv; done)
        | (simp only [failWith, Outcome.returned.injEq] at hv; subst hv
           exact Or.inl ⟨_, rfl⟩)
        | (simp only [Outcome.returned.injEq] at hv; subst hv
           exact Or.inr rfl)
  · intro vals
    unfold LuajitSetFlowint
    simp only [LuaStateGetFlow]
    repeat' split
    all_goals
      intro hv
      first
        | (simp [faultWith] at hv; done)
        | (simp only [failWith, Outcome.returned.injEq] at hv; subst hv
           exact Or.inl ⟨_, rfl⟩)
        | (simp only [Outcome.returned.injEq] at hv; subst hv
           exact Or.inr rfl)

/-- C15: result shape, evaluated where the code departs from the claim. With context,
flow and the bound id 0, `ScFlowvarSet (0, "abc", 5)` passes every check of
`LuajitSetFlowvar` and copies 5 bytes out of the 4 the value has with its NUL: the call
is neither a failure of two values nor a success without value, it is an execution C
leaves undefined (a read past the string), so nothing keeps it from ending the thread.
In a build with 16 string ids and 15 integer ids `ScFlowintSet (15, 7)` likewise ends
in a read past the identifier table and returns nothing. -/
theorem C15_result_shape :
    (LuajitSetFlowvar env15 lua0
        [LuaValue.number 0, LuaValue.string [97, 98, 99], LuaValue.number 5] world0).out =
      Outcome.undefined (Fault.copyOverrun 5 4)
    ∧ (∀ vals, (LuajitSetFlowvar env15 lua0
        [LuaValue.number 0, LuaValue.string [97, 98, 99], LuaValue.number 5] world0).out ≠
      Outcome.returned vals)
    ∧ (LuajitSetFlowint envSkew lua0
        [LuaValue.number 15, LuaValue.number 7] world0).out =
      Outcome.undefined (Fault.tableOverrun Namespace.flowint 15)
    ∧ (∀ vals, (LuajitSetFlowint envSkew lua0
        [LuaValue.number 15, LuaValue.number 7] world0).out ≠ Outcome.returned vals) := by
  have h1 : (LuajitSetFlowvar env15 lua0
      [LuaValue.number 0, LuaValue.string [97, 98, 99], LuaValue.number 5] world0).out =
      Outcome.undefined (Fault.copyOverrun 5 4) := by decide
  have h2 : (LuajitSetFlowint envSkew lua0
      [LuaValue.number 15, LuaValue.number 7] world0).out =
      Outcome.undefined (Fault.tableOverrun Namespace.flowint 15) := by decide
  refine ⟨h1, ?_, h2, ?_⟩
  · intro vals h
    rw [h1] at h
    cases h
  · intro vals h
    rw [h2] at h
    cases h

/-! ## The published context -/

/-- With the identifier table and the detection context present, no accessor returns
one of the two internal errors, and it returns "no flow" exactly when there is no
flow. -/
theorem context_errors (E : Env) (L : LuaState) (args : List LuaValue) (W : World)
    (ld : DetectLuajitData) (dc : Nat)
    (hld : L.ld = some ld) (hdc : L.det_ctx = some dc) :
    ∀ acc ∈ accessors,
      (acc E L args W).out ≠
        Outcome.returned [LuaValue.nil, lua_pushstring "internal error: no ld"]
      ∧ (acc E L args W).out ≠
        Outcome.returned [LuaValue.nil, lua_pushstring "internal error: no det_ctx"]
      ∧ ((acc E L args W).out =
          Outcome.returned [LuaValue.nil, lua_pushstring "no flow"] ↔ L.flow = none) := by
  intro acc hacc
  simp only [accessors, List.mem_cons, List.mem_singleton, List.not_mem_nil,
    or_false] at hacc
  cases hf : L.flow with
  | none =>
    rcases hacc with rfl | rfl | rfl | rfl | rfl | rfl
    · simp only [LuajitGetFlowvar, hld, hf, LuaStateGetFlow, failWith]
      refine ⟨by decide, by decide, by simp⟩
    · simp only [LuajitSetFlowvar, hld, hdc, hf, LuaStateGetFlow, failWith]
      refine ⟨by decide, by decide, by simp⟩
    · simp only [LuajitGetFlowint, hld, hf, LuaStateGetFlow, failWith]
      refine ⟨by decide, by decide, by simp⟩
    · simp only [LuajitSetFlowint, hld, hdc, hf, LuaStateGetFlow, failWith]
      refine ⟨by decide, by decide, by simp⟩
    · simp only [LuajitIncrFlowint, hld, hf, LuaStateGetFlow, failWith]
      refine ⟨by decide, by decide, by simp⟩
    · simp only [LuajitDecrFlowint, hld, hf, LuaStateGetFlow, failWith]
      refine ⟨by decide, by decide, by simp⟩
  | some f =>
    rcases hacc with rfl | rfl | rfl | rfl | rfl | rfl
    · simp only [LuajitGetFlowvar, hld, hf, LuaStateGetFlow]
      repeat' split
      all_goals
        simp only [failWith, faultWith, Outcome.returned.injEq, ne_eq, reduceCtorEq,
          not_false_eq_true, iff_false, and_self, List.cons.injEq, true_and, and_true,
          List.cons_ne_self]
        try decide
    · simp only [LuajitSetFlowvar, hld, hdc, hf, LuaStateGetFlow]
      repeat' split
      all_goals
        simp only [failWith, faultWith, Outcome.returned.injEq, ne_eq, reduceCtorEq,
          not_false_eq_true, iff_false, and_self, List.cons.injEq, true_and, and_true,
          List.cons_ne_self]
        try decide
    · simp only [LuajitGetFlowint, hld, hf, LuaStateGetFlow]
      repeat' split
      all_goals
        simp only [failWith, faultWith, Outcome.returned.injEq, ne_eq, reduceCtorEq,
          not_false_eq_true, iff_false, and_self, List.cons.injEq, true_and, and_true,
          List.cons_ne_self]
        try decide
    · simp only [LuajitSetFlowint, hld, hdc, hf, LuaStateGetFlow]
      repeat' split
      all_goals
        simp only [failWith, faultWith, Outcome.returned.injEq, ne_eq, reduceCtorEq,
          not_false_eq_true, iff_false, and_self, List.cons.injEq, true_and, and_true,
          List.cons_ne_self]
        try decide
    · simp only [LuajitIncrFlowint, hld, hf, LuaStateGetFlow]
      repeat' split
      all_goals
        simp only [failWith, faultWith, Outcome.returned.injEq, ne_eq, reduceCtorEq,
          not_false_eq_true, iff_false, and_self, List.cons.injEq, true_and, and_true,
          List.cons_ne_self]
        try decide
    · simp only [LuajitDecrFlowint, hld, hf, LuaStateGetFlow]
      repeat' split
      all_goals
        simp only [failWith, faultWith, Outcome.returned.injEq, ne_eq, reduceCtorEq,
          not_false_eq_true, iff_false, and_self, List.cons.injEq, true_and, and_true,
          List.cons_ne_self]
        try decide

/-- C16: the published context is what the accessors see. After
`LuajitExtensionsMatchSetup (lua_state, ld, det_ctx, f, flow_locked)` with non-null
`ld` and `det_ctx`, the state holds exactly that tuple, whatever it held before; no
accessor returns "internal error: no ld" or "internal error: no det_ctx"; an accessor
returns "no flow" exactly when `f` is null; the result of an accessor depends on the
earlier state in nothing; and the setup after an earlier setup equals the setup
alone. -/
theorem C16_published_context (E : Env) (lua_state : LuaState) (ld : DetectLuajitData)
    (dc : Nat) (f : Option Nat) (flow_locked : Int) (args : List LuaValue) (W : World) :
    LuajitExtensionsMatchSetup lua_state (some ld) (some dc) f flow_locked =
      { ld := some ld, det_ctx := some dc, flow := f, flow_lock := flow_locked }
    ∧ (∀ acc ∈ accessors,
      (acc E (LuajitExtensionsMatchSetup lua_state (some ld) (some dc) f flow_locked)
          args W).out ≠
        Outcome.returned [LuaValue.nil, lua_pushstring "internal error: no ld"]
      ∧ (acc E (LuajitExtensionsMatchSetup lua_state (some ld) (some dc) f flow_locked)
          args W).out ≠
        Outcome.returned [LuaValue.nil, lua_pushstring "internal error: no det_ctx"]
      ∧ ((acc E (LuajitExtensionsMatchSetup lua_state (some ld) (some dc) f flow_locked)
          args W).out =
        Outcome.returned [LuaValue.nil, lua_pushstring "no flow"] ↔ f = none))
    ∧ (∀ acc ∈ accessors, ∀ earlier : LuaState,
      acc E (LuajitExtensionsMatchSetup earlier (some ld) (some dc) f flow_locked) args W =
        acc E (LuajitExtensionsMatchSetup lua_state (some ld) (some dc) f flow_locked)
          args W)
    ∧ (∀ (ld1 : Option DetectLuajitData) (dc1 f1 : Option Nat) (fl1 : Int),
      LuajitExtensionsMatchSetup
          (LuajitExtensionsMatchSetup lua_state ld1 dc1 f1 fl1)
          (some ld) (some dc) f flow_locked =
        LuajitExtensionsMatchSetup lua_state (some ld) (some dc) f flow_locked) := by
  refine ⟨rfl, ?_, ?_, ?_⟩
  · intro acc hacc
    exact context_errors E _ args W ld dc rfl rfl acc hacc
  · intro acc _ earlier
    rfl
  · intro ld1 dc1 f1 fl1
    rfl

/-! ## Isolation of slots and flows -/

theorem FlowVarGet_setSlot_other (W : World) (f idx g j : Nat) (fv : FlowVar)
    (h : g ≠ f ∨ j ≠ idx) : FlowVarGet (setSlot W f idx fv) g j = FlowVarGet W g j := by
  by_cases hg : g = f
  · subst hg
    rcases h with h | h
    · exact absurd rfl h
    · exact FlowVarGet_setSlot_other_idx W g idx j fv h
  · exact FlowVarGet_setSlot_other_flow W f g idx j fv hg

/-- The world an accessor leaves is the world it got, or that world with the one slot
its first argument resolves to replaced. -/
theorem world_shape (E : Env) (L : LuaState) (args : List LuaValue) (W : World)
    (ld : DetectLuajitData) (f : Nat) (hld : L.ld = some ld) (hf : L.flow = some f) :
    ((LuajitSetFlowvar E L args W).world = W
      ∨ (0 ≤ toCInt (lua_tonumber E (lua_arg args 1))
        ∧ ∃ fv, (LuajitSetFlowvar E L args W).world =
          setSlot W f (ld.flowvar (toCInt (lua_tonumber E (lua_arg args 1))).toNat) fv))
    ∧ ((LuajitSetFlowint E L args W).world = W
      ∨ (0 ≤ toCInt (lua_tonumber E (lua_arg args 1))
        ∧ ∃ fv, (LuajitSetFlowint E L args W).world =
          setSlot W f (ld.flowint (toCInt (lua_tonumber E (lua_arg args 1))).toNat) fv))
    ∧ ((LuajitIncrFlowint E L args W).world = W
      ∨ (0 ≤ toCInt (lua_tonumber E (lua_arg args 1))
        ∧ ∃ fv, (LuajitIncrFlowint E L args W).world =
          setSlot W f (ld.flowint (toCInt (lua_tonumber E (lua_arg args 1))).toNat) fv))
    ∧ ((LuajitDecrFlowint E L args W).world = W
      ∨ (0 ≤ toCInt (lua_tonumber E (lua_arg args 1))
        ∧ ∃ fv, (LuajitDecrFlowint E L args W).world =
          setSlot W f (ld.flowint (toCInt (lua_tonumber E (lua_arg args 1))).toNat) fv)) := by
  refine ⟨?_, ?_, ?_, ?_⟩
  · simp only [LuajitSetFlowvar, hld, hf, LuaStateGetFlow]
    repeat' split
    all_goals
      first
        | exact Or.inl rfl
        | (simp_all [tableGet, FlowVarAddStr, FlowVarAddStrNoLock])
  · simp only [LuajitSetFlowint, hld, hf, LuaStateGetFlow]
    repeat' split
    all_goals
      first
        | exact Or.inl rfl
        | (simp_all [tableGet, FlowVarAddInt, FlowVarAddIntNoLock])
  · simp only [LuajitIncrFlowint, hld, hf, LuaStateGetFlow]
    repeat' split
    all_goals
      first
        | exact Or.inl rfl
        | (simp_all [tableGet, FlowVarAddIntNoLock])
  · simp only [LuajitDecrFlowint, hld, hf, LuaStateGetFlow]
    repeat' split
    all_goals
      first
        | exact Or.inl rfl
        | (simp_all [tableGet, FlowVarAddIntNoLock])

/-- A world that is the old one, or the old one with slot `(f, i)` replaced, agrees
with the old one at every other slot. -/
theorem frame_of_shape (W W1 : World) (f : Nat) (ld_tab : Nat → Nat) (cid id : Int)
    (hcid : 0 ≤ cid → cid = id)
    (h : W1 = W ∨ (0 ≤ cid ∧ ∃ fv, W1 = setSlot W f (ld_tab cid.toNat) fv))
    (g j : Nat) (hgj : g ≠ f ∨ j ≠ ld_tab id.toNat) :
    FlowVarGet W1 g j = FlowVarGet W g j := by
  rcases h with h | ⟨h0, fv, h⟩
  · rw [h]
  · rw [h, hcid h0]
    exact FlowVarGet_setSlot_other W f _ g j fv hgj

/-- C17: slot and flow isolation. A call of `ScFlowvarSet`, `ScFlowintSet`,
`ScFlowintIncr` or `ScFlowintDecr` on flow `f` with the id `id` leaves every slot other
than `(f, i)` as it was, `i` being the storage index the identifier table gives for
`id`: the slots of `f` at other indices and all slots of every other flow are unchanged
(whether the call succeeds or fails). -/
theorem C17_isolation (E : Env) (L : LuaState) (W : World) (ld : DetectLuajitData)
    (f : Nat) (id : Int) (rest : List LuaValue)
    (hld : L.ld = some ld) (hf : L.flow = some f) :
    (∀ g j, g ≠ f ∨ j ≠ ld.flowvar id.toNat →
      FlowVarGet (LuajitSetFlowvar E L (LuaValue.number id :: rest) W).world g j =
        FlowVarGet W g j)
    ∧ (∀ g j, g ≠ f ∨ j ≠ ld.flowint id.toNat →
      FlowVarGet (LuajitSetFlowint E L (LuaValue.number id :: rest) W).world g j =
        FlowVarGet W g j)
    ∧ (∀ g j, g ≠ f ∨ j ≠ ld.flowint id.toNat →
      FlowVarGet (LuajitIncrFlowint E L (LuaValue.number id :: rest) W).world g j =
        FlowVarGet W g j)
    ∧ (∀ g j, g ≠ f ∨ j ≠ ld.flowint id.toNat →
      FlowVarGet (LuajitDecrFlowint E L (LuaValue.number id :: rest) W).world g j =
        FlowVarGet W g j) := by
  have hsh := world_shape E L (LuaValue.number id :: rest) W ld f hld hf
  have harg : lua_tonumber E (lua_arg (LuaValue.number id :: rest) 1) = id := rfl
  rw [harg] at hsh
  have hcid : 0 ≤ toCInt id → toCInt id = id := toCInt_of_nonneg
  refine ⟨?_, ?_, ?_, ?_⟩
  · intro g j hgj
    exact frame_of_shape W _ f ld.flowvar (toCInt id) id hcid hsh.1 g j hgj
  · intro g j hgj
    exact frame_of_shape W _ f ld.flowint (toCInt id) id hcid hsh.2.1 g j hgj
  · intro g j hgj
    exact frame_of_shape W _ f ld.flowint (toCInt id) id hcid hsh.2.2.1 g j hgj
  · intro g j hgj
    exact frame_of_shape W _ f ld.flowint (toCInt id) id hcid hsh.2.2.2 g j hgj

/-- C17 at a concrete input: an increment of id 0 on flow 1 (storage index 7) leaves
slot 7 of flow 2 and slot 8 of flow 1 as they were, while slot 7 of flow 1 now holds
1. -/
theorem C17_isolation_witness :
    FlowVarGet (LuajitIncrFlowint env15 lua0 [LuaValue.number 0] world0).world 2 7 =
      FlowVarGet world0 2 7
    ∧ FlowVarGet (LuajitIncrFlowint env15 lua0 [LuaValue.number 0] world0).world 1 8 =
      FlowVarGet world0 1 8
    ∧ FlowVarGet (LuajitIncrFlowint env15 lua0 [LuaValue.number 0] world0).world 1 7 =
      some (FlowVar.fv_int 1) :=
  ⟨(C17_isolation env15 lua0 world0 ld0 1 0 [] rfl rfl).2.2.1 2 7 (Or.inl (by decide)),
    (C17_isolation env15 lua0 world0 ld0 1 0 [] rfl rfl).2.2.1 1 8 (Or.inr (by decide)),
    by decide⟩

/-! ## Registration of the bindings -/

/-- The namespace after registration, global by global. -/
theorem register_apply (G : Globals) (name : String) :
    (LuajitRegisterExtensions G).1 name =
      if name = "ScFlowintDecr" then some (Global.cfunction CFunction.LuajitDecrFlowint)
      else if name = "ScFlowintIncr" then
        some (Global.cfunction CFunction.LuajitIncrFlowint)
      else if name = "ScFlowintSet" then some (Global.cfunction CFunction.LuajitSetFlowint)
      else if name = "ScFlowintGet" then some (Global.cfunction CFunction.LuajitGetFlowint)
      else if name = "ScFlowvarSet" then some (Global.cfunction CFunction.LuajitSetFlowvar)
      else if name = "ScFlowvarGet" then some (Global.cfunction CFunction.LuajitGetFlowvar)
      else G name := by
  simp only [LuajitRegisterExtensions, lua_setglobal, Function.update_apply]

/-- C18: binding registration. `LuajitRegisterExtensions` returns 0 and binds the six
globals `ScFlowvarGet`, `ScFlowvarSet`, `ScFlowintGet`, `ScFlowintSet`, `ScFlowintIncr`,
`ScFlowintDecr` to `LuajitGetFlowvar`, `LuajitSetFlowvar`, `LuajitGetFlowint`,
`LuajitSetFlowint`, `LuajitIncrFlowint`, `LuajitDecrFlowint`; every global with another
name is unchanged; registering twice gives the namespace of registering once. -/
theorem C18_registration (G : Globals) :
    (LuajitRegisterExtensions G).2 = 0
    ∧ (LuajitRegisterExtensions G).1 "ScFlowvarGet" =
      some (Global.cfunction CFunction.LuajitGetFlowvar)
    ∧ (LuajitRegisterExtensions G).1 "ScFlowvarSet" =
      some (Global.cfunction CFunction.LuajitSetFlowvar)
    ∧ (LuajitRegisterExtensions G).1 "ScFlowintGet" =
      some (Global.cfunction CFunction.LuajitGetFlowint)
    ∧ (LuajitRegisterExtensions G).1 "ScFlowintSet" =
      some (Global.cfunction CFunction.LuajitSetFlowint)
    ∧ (LuajitRegisterExtensions G).1 "ScFlowintIncr" =
      some (Global.cfunction CFunction.LuajitIncrFlowint)
    ∧ (LuajitRegisterExtensions G).1 "ScFlowintDecr" =
      some (Global.cfunction CFunction.LuajitDecrFlowint)
    ∧ (∀ name, name ∉ registeredNames → (LuajitRegisterExtensions G).1 name = G name)
    ∧ LuajitRegisterExtensions (LuajitRegisterExtensions G).1 =
      LuajitRegisterExtensions G := by
  refine ⟨rfl, ?_, ?_, ?_, ?_, ?_, ?_, ?_, ?_⟩
  · rw [register_apply]; simp
  · rw [register_apply]; simp
  · rw [register_apply]; simp
  · rw [register_apply]; simp
  · rw [register_apply]; simp
  · rw [register_apply]; simp
  · intro name hname
    simp only [registeredNames, List.mem_cons, List.mem_singleton, List.not_mem_nil,
      or_false, not_or] at hname
    rw [register_apply]
    simp only [hname, if_false]
  · have h2 : (LuajitRegisterExtensions (LuajitRegisterExtensions G).1).1 =
        (LuajitRegisterExtensions G).1 := by
      funext name
      rw [register_apply, register_apply]
      repeat' split
      all_goals rfl
    exact Prod.ext h2 rfl

/-! ## Failures leave the store alone -/

/-- C20: failure is atomic. For each of the six accessors and every context, world and
argument list, a call that returns a failure `(nil, message)` leaves the world exactly
as it was, and its trace holds no slot write: every check (context, flow, argument
types, id range, length or value range, unbound index, allocation) is made before the
first write. -/
theorem C20_failure_atomic (E : Env) (L : LuaState) (args : List LuaValue) (W : World) :
    ∀ acc ∈ accessors, ∀ v,
      (acc E L args W).out = Outcome.returned [LuaValue.nil, v] →
      (acc E L args W).world = W
      ∧ ∀ e ∈ (acc E L args W).trace, e.isWrite = false := by
  intro acc hacc v
  simp only [accessors, List.mem_cons, List.mem_singleton, List.not_mem_nil,
    or_false] at hacc
  rcases hacc with rfl | rfl | rfl | rfl | rfl | rfl
  · unfold LuajitGetFlowvar
    simp only [LuaStateGetFlow]
    repeat' split
    all_goals
      intro hv
      simp_all [failWith, faultWith, rdlockIf, unlockIf, Event.isWrite]
      try (intro a ha; rcases ha with ⟨_, rfl⟩ | rfl | ⟨_, rfl⟩ <;> rfl)
  · unfold LuajitSetFlowvar
    simp only [LuaStateGetFlow]
    repeat' split
    all_goals
      intro hv
      simp_all [failWith, faultWith, Event.isWrite]
  · unfold LuajitGetFlowint
    simp only [LuaStateGetFlow]
    repeat' split
    all_goals
      intro hv
      simp_all [failWith, faultWith, rdlockIf, unlockIf, Event.isWrite]
      try (intro a ha; rcases ha with ⟨_, rfl⟩ | rfl | ⟨_, rfl⟩ <;> rfl)
  · unfold LuajitSetFlowint
    simp only [LuaStateGetFlow]
    repeat' split
    all_goals
      intro hv
      simp_all [failWith, faultWith, Event.isWrite]
  · unfold LuajitIncrFlowint
    simp only [LuaStateGetFlow]
    repeat' split
    all_goals
      intro hv
      simp_all [failWith, faultWith, rdlockIf, unlockIf, Event.isWrite]
  · unfold LuajitDecrFlowint
    simp only [LuaStateGetFlow]
    repeat' split
    all_goals
      intro hv
      simp_all [failWith, faultWith, rdlockIf, unlockIf, Event.isWrite]

/-- C20 at a concrete input: `ScFlowintSet (1, 3)` on the unbound id 1 fails and
leaves the world as it was. -/
theorem C20_failure_atomic_witness :
    (LuajitSetFlowint env15 lua0 [LuaValue.number 1, LuaValue.number 3] world0).world =
      world0
    ∧ ∀ e ∈ (LuajitSetFlowint env15 lua0
        [LuaValue.number 1, LuaValue.number 3] world0).trace, e.isWrite = false :=
  C20_failure_atomic env15 lua0 [LuaValue.number 1, LuaValue.number 3] world0
    LuajitSetFlowint (by simp [accessors]) _ rfl

/-! ## Concurrent increments -/

/-- C19: concurrent increments, evaluated where the code departs from the claim. Two
threads each call `ScFlowintIncr` once on the same flow and bound id, slot absent, hint
`LUA_FLOW_NOT_LOCKED_BY_PARENT`. Run one after the other they leave 2. Interleaved step
by step (both take `FLOWLOCK_RDLOCK`, which the shared lock grants to both, both read
the absent slot, both write 1, both unlock) they both return 1 and leave 1: one update
is lost. A single thread leaves what `LuajitIncrFlowint` leaves. -/
theorem C19_concurrent_increments :
    observe 1 7 (runSchedule 1 7 [0, 0, 0, 0, 1, 1, 1, 1] twoThreads) =
      some ([{ pc := 4, number := 1 }, { pc := 4, number := 2 }],
        some (FlowVar.fv_int 2), 0)
    ∧ observe 1 7 (runSchedule 1 7 [0, 1, 0, 1, 0, 1, 0, 1] twoThreads) =
      some ([{ pc := 4, number := 1 }, { pc := 4, number := 1 }],
        some (FlowVar.fv_int 1), 0)
    ∧ (observe 1 7 (runSchedule 1 7 [0, 0, 0, 0] twoThreads)).map (fun o => o.2.1) =
      some (FlowVarGet (LuajitIncrFlowint env15 lua0 [LuaValue.number 0] world0).world
        1 7) := by
  decide

/-! ## Reads are pure; increment and decrement undo each other -/

/-- C21: reads are pure. For every context, world and argument list, `ScFlowvarGet` and
`ScFlowintGet` leave the world as it was, whether they succeed or fail, and a second
call with the same arguments on the world the first one left gives the same result. -/
theorem C21_reads_pure (E : Env) (L : LuaState) (args : List LuaValue) (W : World) :
    (LuajitGetFlowvar E L args W).world = W
    ∧ (LuajitGetFlowint E L args W).world = W
    ∧ LuajitGetFlowvar E L args (LuajitGetFlowvar E L args W).world =
      LuajitGetFlowvar E L args W
    ∧ LuajitGetFlowint E L args (LuajitGetFlowint E L args W).world =
      LuajitGetFlowint E L args W := by
  have h1 : (LuajitGetFlowvar E L args W).world = W := by
    unfold LuajitGetFlowvar
    simp only [LuaStateGetFlow]
    repeat' split
    all_goals rfl
  have h2 : (LuajitGetFlowint E L args W).world = W := by
    unfold LuajitGetFlowint
    simp only [LuaStateGetFlow]
    repeat' split
    all_goals rfl
  refine ⟨h1, h2, ?_, ?_⟩
  · rw [h1]
  · rw [h2]

/-- C22: increment and decrement are mutual inverses away from the bounds. On a bound
integer id whose slot holds the 32-bit value `v`: if `v < 4294967295`, `ScFlowintIncr`
then `ScFlowintDecr` returns `v` and stores `v`; if `v > 0`, `ScFlowintDecr` then
`ScFlowintIncr` returns `v` and stores `v`; at `v = 4294967295` Incr then Decr gives
`v - 1`, and at `v = 0` Decr then Incr gives 1. -/
theorem C22_incr_decr_inverse (E : Env) (L : LuaState) (W : World)
    (ld : DetectLuajitData) (f : Nat) (id : Int) (v : Nat)
    (hld : L.ld = some ld) (hf : L.flow = some f)
    (hid0 : 0 ≤ id) (hid1 : id < E.DETECT_LUAJIT_MAX_FLOWINTS)
    (hidx : ld.flowint id.toNat ≠ 0)
    (hv : v ≤ 4294967295)
    (hslot : FlowVarGet W f (ld.flowint id.toNat) = some (FlowVar.fv_int v)) :
    (v < 4294967295 →
      (LuajitDecrFlowint E L [LuaValue.number id]
        (LuajitIncrFlowint E L [LuaValue.number id] W).world).out =
        Outcome.returned [LuaValue.number (v : Int)]
      ∧ FlowVarGet (LuajitDecrFlowint E L [LuaValue.number id]
          (LuajitIncrFlowint E L [LuaValue.number id] W).world).world f
          (ld.flowint id.toNat) = some (FlowVar.fv_int v))
    ∧ (0 < v →
      (LuajitIncrFlowint E L [LuaValue.number id]
        (LuajitDecrFlowint E L [LuaValue.number id] W).world).out =
        Outcome.returned [LuaValue.number (v : Int)]
      ∧ FlowVarGet (LuajitIncrFlowint E L [LuaValue.number id]
          (LuajitDecrFlowint E L [LuaValue.number id] W).world).world f
          (ld.flowint id.toNat) = some (FlowVar.fv_int v))
    ∧ (v = 4294967295 →
      (LuajitDecrFlowint E L [LuaValue.number id]
        (LuajitIncrFlowint E L [LuaValue.number id] W).world).out =
        Outcome.returned [LuaValue.number 4294967294]
      ∧ FlowVarGet (LuajitDecrFlowint E L [LuaValue.number id]
          (LuajitIncrFlowint E L [LuaValue.number id] W).world).world f
          (ld.flowint id.toNat) = some (FlowVar.fv_int 4294967294))
    ∧ (v = 0 →
      (LuajitIncrFlowint E L [LuaValue.number id]
        (LuajitDecrFlowint E L [LuaValue.number id] W).world).out =
        Outcome.returned [LuaValue.number 1]
      ∧ FlowVarGet (LuajitIncrFlowint E L [LuaValue.number id]
          (LuajitDecrFlowint E L [LuaValue.number id] W).world).world f
          (ld.flowint id.toNat) = some (FlowVar.fv_int 1)) := by
  have hI := LuajitIncrFlowint_ok E L W ld f id [] hld hf hid0 hid1 hidx
    (by simp [hslot])
  have hD := LuajitDecrFlowint_ok E L W ld f id [] hld hf hid0 hid1 hidx
    (by simp [hslot])
  have hDI := LuajitDecrFlowint_ok E L
    (setSlot W f (ld.flowint id.toNat)
      (FlowVar.fv_int (incrValue (FlowVarGet W f (ld.flowint id.toNat)))))
    ld f id [] hld hf hid0 hid1 hidx (by simp)
  have hID := LuajitIncrFlowint_ok E L
    (setSlot W f (ld.flowint id.toNat)
      (FlowVar.fv_int (decrValue (FlowVarGet W f (ld.flowint id.toNat)))))
    ld f id [] hld hf hid0 hid1 hidx (by simp)
  rw [hI, hD]
  simp only []
  rw [hDI, hID]
  simp only [FlowVarGet_setSlot_same, hslot, decrValue_int, incrValue_int v hv]
  refine ⟨?_, ?_, ?_, ?_⟩
  · intro h
    have e : min (v + 1) 4294967295 - 1 = v := by omega
    rw [e]
    exact ⟨rfl, rfl⟩
  · intro h
    have e : incrValue (some (FlowVar.fv_int (v - 1))) = v := by
      rw [incrValue_int _ (by omega)]
      omega
    rw [e]
    exact ⟨rfl, rfl⟩
  · intro h
    subst h
    exact ⟨rfl, rfl⟩
  · intro h
    subst h
    exact ⟨rfl, rfl⟩

/-- C22 at a concrete input: slot 7 of flow 1 holds 5; Incr then Decr gives 5 back. -/
theorem C22_incr_decr_inverse_witness :
    (LuajitDecrFlowint env15 lua0 [LuaValue.number 0]
        (LuajitIncrFlowint env15 lua0 [LuaValue.number 0] worldInt5).world).out =
        Outcome.returned [LuaValue.number ((5 : Nat) : Int)]
      ∧ FlowVarGet (LuajitDecrFlowint env15 lua0 [LuaValue.number 0]
          (LuajitIncrFlowint env15 lua0 [LuaValue.number 0] worldInt5).world).world 1
          (ld0.flowint (0 : Int).toNat) = some (FlowVar.fv_int 5) :=
  (C22_incr_decr_inverse env15 lua0 worldInt5 ld0 1 0 5 rfl rfl (by decide) (by decide)
    (by decide) (by decide) (by decide)).1 (by decide)

/-! ## The copy in `ScFlowvarSet` and the buffer in `ScFlowvarGet` -/

/-- C23: the copy in `ScFlowvarSet`, evaluated where the code departs from the claim.
With context, flow and the bound id 0, `ScFlowvarSet (0, "abc", 5)` passes every check
and reaches `memcpy (buffer, str, len)` with `len = 5` above the 3 bytes of the value
(4 with the terminating NUL): the copy reads past the string. With the declared length
4 the copy takes the terminating NUL as a fourth byte, and `ScFlowvarGet` then returns
4 bytes for the 3-byte value. -/
theorem C23_copy_within_value :
    ([97, 98, 99] : List Byte).length < 5
    ∧ (LuajitSetFlowvar env15 lua0
        [LuaValue.number 0, LuaValue.string [97, 98, 99], LuaValue.number 5] world0).out =
      Outcome.undefined (Fault.copyOverrun 5 4)
    ∧ (LuajitSetFlowvar env15 lua0
        [LuaValue.number 0, LuaValue.string [97, 98, 99], LuaValue.number 4] world0).out =
      Outcome.returned []
    ∧ (LuajitGetFlowvar env15 lua0 [LuaValue.number 0]
        (LuajitSetFlowvar env15 lua0
          [LuaValue.number 0, LuaValue.string [97, 98, 99], LuaValue.number 4]
          world0).world).out =
      Outcome.returned [LuaValue.string [97, 98, 99, 0]] := by
  decide

/-- The temporary buffer of `LuajitGetFlowvar` has `bufferLength` bytes, at least one
more than the stored length: the `memcpy` of the stored bytes and the NUL written
behind them stay inside it. -/
theorem getBuffer_length (value : List Byte) (value_len : Nat)
    (h : value_len ≤ value.length) :
    value_len + 1 ≤ bufferLength value_len
    ∧ ∃ buf, getBuffer value value_len = some buf ∧ buf.length = bufferLength value_len := by
  refine ⟨by unfold bufferLength; omega, _, getBuffer_eq value value_len h, ?_⟩
  simp only [List.length_set, List.length_append, List.length_take, List.length_drop,
    List.length_replicate, bufferLength]
  omega

/-- C26: the size of the temporary buffer, evaluated where the code departs from the
claim. For the stored length 0 the size `L + 1 + ((L + 1) % 4)` is 2, and for the
stored length 2 it is 6: neither is a multiple of 4, against the comment above the
computation. The buffer `LuajitGetFlowvar` builds for an empty value has 2 bytes. -/
theorem C26_buffer_size :
    bufferLength 0 = 2 ∧ ¬ (4 ∣ bufferLength 0)
    ∧ bufferLength 2 = 6 ∧ ¬ (4 ∣ bufferLength 2)
    ∧ (getBuffer [] 0).map List.length = some 2 := by
  decide

/-! ## The cookie scan -/

/-- C24: the value `GetCookieValue` hands back, evaluated where the code departs from
the claim. In the header `a=1; b=2` the value of `a` is the one byte `1`; for the name
`a` the function stores the start of that value (offset 2) and returns 2, the bytes
`1;`: the `p++` that steps over the `;` comes before `p - cv` is taken. For the last
pair, `b`, it returns the length 1 of the value `2`. -/
theorem C24_cookie_value :
    GetCookieValue cookiesAB cookiesAB.length [97] =
      some { ret := 2, cookievalue := some 2, scanned := [(0, 2)] }
    ∧ (cookiesAB.drop 2).take 2 = [49, 59]
    ∧ GetCookieValue cookiesAB cookiesAB.length [98] =
      some { ret := 1, cookievalue := some 7, scanned := [(0, 2), (5, 7)] }
    ∧ (cookiesAB.drop 7).take 1 = [50] := by
  decide

/-- The loop of `GetCookieValue` from a state in which `cn` is not behind `p`, a value
start lies behind `cn` and not behind `p`, and the fuel covers the bytes left: it ends,
every pair it compares has its value start behind its name start, and it either
returns 0 with nothing stored and no pair matching, or stores the value start of a
matching pair and returns a positive length that stays inside the buffer. -/
theorem cookieLoop_spec (rawcookies : List Byte) (len : Nat) (cookiename : List Byte)
    (hlen : len < 4294967296) :
    ∀ (fuel p cn : Nat) (cv : Option Nat) (acc : List (Nat × Nat)),
      cn ≤ p → (∀ c, cv = some c → cn < c ∧ c ≤ p) → 1 ≤ fuel → len + 1 ≤ p + fuel →
      ∃ r new, cookieLoop rawcookies len cookiename fuel p cn cv acc = some r
        ∧ r.scanned = acc ++ new
        ∧ (∀ pr ∈ new, pr.1 < pr.2)
        ∧ ((r.ret = 0 ∧ r.cookievalue = none
            ∧ ∀ pr ∈ new, nameMatches rawcookies cookiename pr.1 pr.2 = false)
          ∨ (∃ cn1 s, r.cookievalue = some s ∧ (cn1, s) ∈ new
            ∧ nameMatches rawcookies cookiename cn1 s = true
            ∧ 0 < r.ret ∧ s + r.ret ≤ len)) := by
  intro fuel
  induction fuel with
  | zero => intro p cn cv acc _ _ h1 _; omega
  | succ k ih =>
    intro p cn cv acc hcn hcv _ hfuel
    unfold cookieLoop
    by_cases hp : p < len
    · rw [if_pos hp]
      cases cv with
      | none =>
        simp only []
        split
        · obtain ⟨r, new, h1, h2, h3, h4⟩ :=
            ih (p + 1) cn (some (p + 1)) acc (by omega)
              (by intro c hc; cases hc; omega) (by omega) (by omega)
          exact ⟨r, new, h1, h2, h3, h4⟩
        · obtain ⟨r, new, h1, h2, h3, h4⟩ :=
            ih (p + 1) cn none acc (by omega) (by intro c hc; cases hc) (by omega)
              (by omega)
          exact ⟨r, new, h1, h2, h3, h4⟩
      | some c =>
        have hc := hcv c rfl
        simp only []
        split
        · cases hm : nameMatches rawcookies cookiename cn c with
          | true =>
            simp only [if_true]
            have hd : ((((p + 1 : Nat) : Int) - (c : Int)) % 4294967296).toNat =
                p + 1 - c := by
              have h0 : (0 : Int) ≤ ((p + 1 : Nat) : Int) - (c : Int) := by omega
              rw [Int.emod_eq_of_lt h0 (by omega)]
              omega
            refine ⟨_, [(cn, c)], rfl, rfl, ?_, Or.inr ⟨cn, c, rfl, by simp, hm, ?_, ?_⟩⟩
            · intro pr hpr
              simp only [List.mem_singleton] at hpr
              subst hpr
              exact hc.1
            · simp only [hd]; omega
            · simp only [hd]; omega
          | false =>
            simp only [Bool.false_eq_true, if_false]
            obtain ⟨r, new, h1, h2, h3, h4⟩ :=
              ih (p + 1 + 1) (p + 1 + 1) none (acc ++ [(cn, c)]) (le_refl _)
                (by intro c hc; cases hc) (by omega) (by omega)
            refine ⟨r, (cn, c) :: new, h1, by simp [h2], ?_, ?_⟩
            · intro pr hpr
              rcases List.mem_cons.mp hpr with h | h
              · subst h; exact hc.1
              · exact h3 pr h
            · rcases h4 with ⟨h5, h6, h7⟩ | ⟨cn1, s, h5, h6, h7, h8, h9⟩
              · refine Or.inl ⟨h5, h6, ?_⟩
                intro pr hpr
                rcases List.mem_cons.mp hpr with h | h
                · subst h; exact hm
                · exact h7 pr h
              · exact Or.inr ⟨cn1, s, h5, List.mem_cons_of_mem _ h6, h7, h8, h9⟩
        · obtain ⟨r, new, h1, h2, h3, h4⟩ :=
            ih (p + 1) cn (some c) acc (by omega)
              (by intro c1 hc1; cases hc1; omega) (by omega) (by omega)
          exact ⟨r, new, h1, h2, h3, h4⟩
    · rw [if_neg hp]
      exact ⟨_, [], rfl, by simp, by simp, Or.inl ⟨rfl, rfl, by simp⟩⟩

/-- On a name without NUL bytes `strlen` is the length. -/
theorem strlen_of_no_nul (s : List Byte) (h : ∀ b ∈ s, b ≠ 0) : strlen s = s.length := by
  unfold strlen
  rw [List.takeWhile_eq_self_iff.mpr]
  intro b hb
  simpa using h b hb

/-- On a name without NUL bytes, `strncmp` over the length of the name is 0 exactly
when the bytes it is compared with are the name. -/
theorem strncmp_eq_zero_iff : ∀ (s1 s2 : List Byte), (∀ b ∈ s1, b ≠ 0) →
    (strncmp s1 s2 s1.length = 0 ↔ s2.take s1.length = s1) := by
  intro s1
  induction s1 with
  | nil => intro s2 _; simp [strncmp]
  | cons a t ih =>
    intro s2 h
    have ha : a ≠ 0 := h a (List.mem_cons_self _ _)
    have ht : ∀ b ∈ t, b ≠ 0 := fun b hb => h b (List.mem_cons_of_mem _ hb)
    cases s2 with
    | nil =>
      have hne : (a.toNat : Int) ≠ 0 := by
        intro h0
        apply ha
        apply UInt8.toNat.inj
        simpa using h0
      simp [strncmp, ha, hne]
    | cons b u =>
      by_cases hab : a = b
      · subst hab
        simp [strncmp, ha, ih u ht]
      · have hne : (a.toNat : Int) - (b.toNat : Int) ≠ 0 := by
          intro h0
          apply hab
          apply UInt8.toNat.inj
          omega
        have hba : ¬ b = a := fun h => hab h.symm
        simp [strncmp, hab, hne, hba]

/-- The name test of `GetCookieValue`, for a name without NUL bytes and a pair whose
value start lies behind its name start: it holds exactly when the bytes from `cn` up to
the byte before `cv - 1` (the `=`) are the name. -/
theorem nameMatches_iff (rawcookies cookiename : List Byte) (cn cv : Nat)
    (hname : ∀ b ∈ cookiename, b ≠ 0) (hcv : cn < cv) (hraw : cv < 4294967296) :
    nameMatches rawcookies cookiename cn cv = true ↔
      (rawcookies.drop cn).take (cv - cn - 1) = cookiename
      ∧ cookiename.length = cv - cn - 1 := by
  have hn : ((cv : Int) - (cn : Int) - 1) = ((cv - cn - 1 : Nat) : Int) := by omega
  have h32 : ((cv - cn - 1 : Nat) : Int) % 4294967296 = ((cv - cn - 1 : Nat) : Int) :=
    Int.emod_eq_of_lt (by omega) (by omega)
  have h64 : ((cv - cn - 1 : Nat) : Int) % 18446744073709551616 =
      ((cv - cn - 1 : Nat) : Int) := Int.emod_eq_of_lt (by omega) (by omega)
  simp only [nameMatches, hn, h32, h64, Int.toNat_ofNat, strlen_of_no_nul _ hname,
    Bool.and_eq_true, decide_eq_true_eq, Nat.cast_inj]
  constructor
  · rintro ⟨h1, h2⟩
    rw [← h1] at h2 ⊢
    exact ⟨(strncmp_eq_zero_iff _ _ hname).mp h2, rfl⟩
  · rintro ⟨h1, h2⟩
    refine ⟨h2, ?_⟩
    rw [← h2] at h1 ⊢
    exact (strncmp_eq_zero_iff _ _ hname).mpr h1

/-- The scan over the bytes of a name: while no value start is set, `k` bytes other
than `=` take `k` iterations and leave `cn` and the record as they were. -/
theorem cookieLoop_name (raw : List Byte) (len : Nat) (name : List Byte) (cn : Nat)
    (acc : List (Nat × Nat)) :
    ∀ (k fuel p : Nat), (∀ i, i < k → raw.getD (p + i) 0 ≠ 61) → p + k ≤ len →
      cookieLoop raw len name (fuel + k) p cn none acc =
        cookieLoop raw len name fuel (p + k) cn none acc := by
  intro k
  induction k with
  | zero => intro fuel p _ _; rfl
  | succ k ih =>
    intro fuel p h hp
    have h0 : raw.getD p 0 ≠ 61 := h 0 (by omega)
    have hlt : p < len := by omega
    rw [show fuel + (k + 1) = (fuel + k) + 1 by omega, cookieLoop, if_pos hlt]
    simp only [h0, if_false]
    rw [ih fuel (p + 1) (fun i hi => by
      have := h (i + 1) (by omega)
      rwa [show p + (i + 1) = p + 1 + i by omega] at this) (by omega)]
    rw [show p + 1 + k = p + (k + 1) by omega]

/-- The scan at a `=` with no value start set: the value starts at the next byte. -/
theorem cookieLoop_eq (raw : List Byte) (len : Nat) (name : List Byte) (fuel p cn : Nat)
    (acc : List (Nat × Nat)) (hp : p < len) (h : raw.getD p 0 = 61) :
    cookieLoop raw len name (fuel + 1) p cn none acc =
      cookieLoop raw len name fuel (p + 1) cn (some (p + 1)) acc := by
  rw [cookieLoop, if_pos hp]
  simp only [h, if_true]

/-- The scan over the bytes of a value: with a value start set, `k` bytes other than
`;`, none of them the last byte of the buffer, take `k` iterations and change
nothing else. -/
theorem cookieLoop_value (raw : List Byte) (len : Nat) (name : List Byte) (cn c : Nat)
    (acc : List (Nat × Nat)) :
    ∀ (k fuel p : Nat), (∀ i, i < k → raw.getD (p + i) 0 ≠ 59) → p + k + 1 ≤ len →
      cookieLoop raw len name (fuel + k) p cn (some c) acc =
        cookieLoop raw len name fuel (p + k) cn (some c) acc := by
  intro k
  induction k with
  | zero => intro fuel p _ _; rfl
  | succ k ih =>
    intro fuel p h hp
    have h0 : raw.getD p 0 ≠ 59 := h 0 (by omega)
    have hlt : p < len := by omega
    have hl : ¬ p = len - 1 := by omega
    rw [show fuel + (k + 1) = (fuel + k) + 1 by omega, cookieLoop, if_pos hlt]
    simp only [h0, hl, or_self, if_false]
    rw [ih fuel (p + 1) (fun i hi => by
      have := h (i + 1) (by omega)
      rwa [show p + (i + 1) = p + 1 + i by omega] at this) (by omega)]
    rw [show p + 1 + k = p + (k + 1) by omega]

/-- The scan at the end of a cookie whose name fails the test: the pair is recorded and
the scan goes on two bytes further, where it takes the next name to start. -/
theorem cookieLoop_end (raw : List Byte) (len : Nat) (name : List Byte)
    (fuel p cn c : Nat) (acc : List (Nat × Nat)) (hp : p < len)
    (h : raw.getD p 0 = 59 ∨ p = len - 1) (hm : nameMatches raw name cn c = false) :
    cookieLoop raw len name (fuel + 1) p cn (some c) acc =
      cookieLoop raw len name fuel (p + 2) (p + 2) none (acc ++ [(cn, c)]) := by
  rw [cookieLoop, if_pos hp]
  simp only [h, if_true, hm, Bool.false_eq_true, if_false]

/-- The scan behind the last byte: the loop is left and 0 returned, nothing stored. -/
theorem cookieLoop_exit (raw : List Byte) (len : Nat) (name : List Byte)
    (fuel p cn : Nat) (cv : Option Nat) (acc : List (Nat × Nat)) (hp : len ≤ p) :
    cookieLoop raw len name (fuel + 1) p cn cv acc =
      some { ret := 0, cookievalue := none, scanned := acc } := by
  unfold cookieLoop
  rw [if_neg (by omega)]

/-- The scan over one pair `name=value;` from the start of its name, the name failing
the test: it goes on behind the byte that follows the `;`. -/
theorem cookieLoop_pair (raw name : List Byte) (len a ln lv fuel : Nat)
    (acc : List (Nat × Nat))
    (hN : ∀ i, i < ln → raw.getD (a + i) 0 ≠ 61)
    (hE : raw.getD (a + ln) 0 = 61)
    (hV : ∀ i, i < lv → raw.getD (a + ln + 1 + i) 0 ≠ 59)
    (hS : raw.getD (a + ln + 1 + lv) 0 = 59)
    (hlen : a + ln + 1 + lv + 1 ≤ len)
    (hM : nameMatches raw name a (a + ln + 1) = false) :
    cookieLoop raw len name (fuel + 1 + lv + 1 + ln) a a none acc =
      cookieLoop raw len name fuel (a + ln + 1 + lv + 2) (a + ln + 1 + lv + 2) none
        (acc ++ [(a, a + ln + 1)]) := by
  rw [cookieLoop_name raw len name a acc ln (fuel + 1 + lv + 1) a hN (by omega),
    cookieLoop_eq raw len name (fuel + 1 + lv) (a + ln) a acc (by omega) hE,
    cookieLoop_value raw len name a (a + ln + 1) acc lv (fuel + 1) (a + ln + 1) hV
      (by omega),
    cookieLoop_end raw len name fuel (a + ln + 1 + lv) a (a + ln + 1) acc (by omega)
      (Or.inl hS) hM]

/-- The scan over the last pair `name=value` of the buffer from the start of its name,
the name failing the test: the function returns 0 and stores nothing. -/
theorem cookieLoop_last (raw name : List Byte) (len a ln lv fuel : Nat)
    (acc : List (Nat × Nat))
    (hN : ∀ i, i < ln → raw.getD (a + i) 0 ≠ 61)
    (hE : raw.getD (a + ln) 0 = 61)
    (hV : ∀ i, i < lv → raw.getD (a + ln + 1 + i) 0 ≠ 59)
    (hlen : len = a + ln + 1 + lv)
    (hM : nameMatches raw name a (a + ln + 1) = false)
    (hfuel : ln + lv + 2 ≤ fuel) :
    ∃ r, cookieLoop raw len name fuel a a none acc = some r ∧ r.ret = 0
      ∧ r.cookievalue = none := by
  obtain ⟨g, rfl⟩ : ∃ g, fuel = g + 1 + ln := ⟨fuel - 1 - ln, by omega⟩
  rw [cookieLoop_name raw len name a acc ln (g + 1) a hN (by omega),
    cookieLoop_eq raw len name g (a + ln) a acc (by omega) hE]
  cases lv with
  | zero =>
    obtain ⟨k, rfl⟩ : ∃ k, g = k + 1 := ⟨g - 1, by omega⟩
    rw [cookieLoop_exit raw len name k (a + ln + 1) a _ acc (by omega)]
    exact ⟨_, rfl, rfl, rfl⟩
  | succ m =>
    obtain ⟨k, rfl⟩ : ∃ k, g = k + 1 + 1 + m := ⟨g - 1 - 1 - m, by omega⟩
    rw [cookieLoop_value raw len name a (a + ln + 1) acc m (k + 1 + 1) (a + ln + 1)
        (fun i hi => hV i (by omega)) (by omega),
      cookieLoop_end raw len name (k + 1) (a + ln + 1 + m) a (a + ln + 1) acc (by omega)
        (Or.inr (by omega)) hM,
      cookieLoop_exit raw len name k (a + ln + 1 + m + 2) (a + ln + 1 + m + 2) none _
        (by omega)]
    exact ⟨_, rfl, rfl, rfl⟩

/-- The byte at offset `i` behind a prefix is byte `i` of what follows the prefix. -/
theorem getD_at (A B : List Byte) (i : Nat) :
    (A ++ B).getD (A.length + i) 0 = B.getD i 0 := by
  rw [List.getD_append_right _ _ _ _ (by omega)]
  congr 1
  omega

/-- A byte read inside the first of two joined lists is a member of that list. -/
theorem getD_head_mem (n C : List Byte) (i : Nat) (h : i < n.length) :
    (n ++ C).getD i 0 ∈ n := by
  rw [List.getD_append _ _ _ _ h, List.getD_eq_getElem _ _ h]
  exact List.getElem_mem h

/-- The bytes of a buffer `pre ++ name ++ "=" ++ value ++ tail`, the name without `=`
and the value without `;`: where the `=` is, what the scan reads before and behind it,
the length, and the name as the bytes at its offset. -/
theorem pair_bytes (pre n v tail : List Byte) (hn : 61 ∉ n) (hv : 59 ∉ v) :
    (∀ i, i < n.length →
        (pre ++ (n ++ 61 :: (v ++ tail))).getD (pre.length + i) 0 ≠ 61)
    ∧ (pre ++ (n ++ 61 :: (v ++ tail))).getD (pre.length + n.length) 0 = 61
    ∧ (∀ i, i < v.length →
        (pre ++ (n ++ 61 :: (v ++ tail))).getD (pre.length + n.length + 1 + i) 0 ≠ 59)
    ∧ (pre ++ (n ++ 61 :: (v ++ tail))).getD (pre.length + n.length + 1 + v.length) 0 =
        tail.headD 0
    ∧ (pre ++ (n ++ 61 :: (v ++ tail))).length =
        pre.length + n.length + 1 + v.length + tail.length
    ∧ ((pre ++ (n ++ 61 :: (v ++ tail))).drop pre.length).take n.length = n := by
  have e2 : pre ++ (n ++ 61 :: (v ++ tail)) = (pre ++ n ++ [61]) ++ (v ++ tail) := by
    simp
  have l2 : (pre ++ n ++ [61]).length = pre.length + n.length + 1 := by
    simp only [List.length_append, List.length_singleton]
  refine ⟨?_, ?_, ?_, ?_, ?_, ?_⟩
  · intro i hi h
    rw [getD_at] at h
    have := getD_head_mem n (61 :: (v ++ tail)) i hi
    rw [h] at this
    exact hn this
  · rw [getD_at, List.getD_append_right _ _ _ _ (le_refl _)]
    simp
  · intro i hi h
    rw [e2, ← l2, getD_at] at h
    have := getD_head_mem v tail i hi
    rw [h] at this
    exact hv this
  · rw [e2, ← l2, getD_at, List.getD_append_right _ _ _ _ (le_refl _)]
    cases tail <;> simp
  · simp
    omega
  · simp

/-- The name test fails at a pair whose name is not the cookie name. -/
theorem nameMatches_other (raw cookiename n : List Byte) (a : Nat)
    (hname : ∀ b ∈ cookiename, b ≠ 0) (hne : n ≠ cookiename)
    (hlen : a + n.length + 1 < 4294967296)
    (hraw : (raw.drop a).take n.length = n) :
    nameMatches raw cookiename a (a + n.length + 1) = false := by
  cases h : nameMatches raw cookiename a (a + n.length + 1) with
  | false => rfl
  | true =>
    have h1 := (nameMatches_iff raw cookiename a (a + n.length + 1) hname (by omega)
      hlen).mp h
    rw [show a + n.length + 1 - a - 1 = n.length by omega, hraw] at h1
    exact absurd h1.1 hne

/-- The scan from the start of a pair in a header of pairs joined by `; `, none of the
pairs left being named `cookiename`: it ends, returns 0 and stores nothing. -/
theorem cookieLoop_header (cookiename : List Byte) (hname : ∀ b ∈ cookiename, b ≠ 0) :
    ∀ (ps : List (List Byte × List Byte)) (pre : List Byte) (fuel : Nat)
      (acc : List (Nat × Nat)),
      (∀ pr ∈ ps, 61 ∉ pr.1 ∧ 59 ∉ pr.2 ∧ pr.1 ≠ cookiename) →
      (pre ++ cookieHeader [59, 32] ps).length < 4294967296 →
      (pre ++ cookieHeader [59, 32] ps).length + 1 ≤ pre.length + fuel →
      ∃ r, cookieLoop (pre ++ cookieHeader [59, 32] ps)
          (pre ++ cookieHeader [59, 32] ps).length cookiename fuel pre.length pre.length
          none acc = some r
        ∧ r.ret = 0 ∧ r.cookievalue = none := by
  intro ps
  induction ps with
  | nil =>
    intro pre fuel acc _ _ hf
    simp only [cookieHeader, List.append_nil] at hf ⊢
    obtain ⟨g, rfl⟩ : ∃ g, fuel = g + 1 := ⟨fuel - 1, by omega⟩
    rw [cookieLoop_exit _ _ _ g _ _ _ _ (le_refl _)]
    exact ⟨_, rfl, rfl, rfl⟩
  | cons pr rest ih =>
    obtain ⟨n, v⟩ := pr
    intro pre fuel acc hps hlen hf
    obtain ⟨hn, hv, hne⟩ := hps (n, v) (List.mem_cons_self _ _)
    cases rest with
    | nil =>
      have e0 : cookieHeader [59, 32] [(n, v)] = n ++ 61 :: (v ++ []) := by
        simp [cookieHeader]
      rw [e0] at hlen hf ⊢
      obtain ⟨hN, hE, hV, _, hL, hT⟩ := pair_bytes pre n v [] hn hv
      rw [hL] at hlen hf
      simp only [List.length_nil, Nat.add_zero] at hlen hf
      exact cookieLoop_last _ cookiename _ pre.length n.length v.length fuel acc hN hE hV
        (by rw [hL]; rfl)
        (nameMatches_other _ cookiename n pre.length hname hne (by omega) hT) (by omega)
    | cons q rest =>
      have e0 : cookieHeader [59, 32] ((n, v) :: q :: rest) =
          n ++ 61 :: (v ++ (59 :: 32 :: cookieHeader [59, 32] (q :: rest))) := by
        simp [cookieHeader]
      have e1 : pre ++ (n ++ 61 :: (v ++ (59 :: 32 :: cookieHeader [59, 32] (q :: rest)))) =
          (pre ++ (n ++ 61 :: (v ++ [59, 32]))) ++ cookieHeader [59, 32] (q :: rest) := by
        simp
      have hp : pre.length + n.length + 1 + v.length + 2 =
          (pre ++ (n ++ 61 :: (v ++ [59, 32]))).length := by
        simp only [List.length_append, List.length_cons, List.length_nil]
        omega
      obtain ⟨hN, hE, hV, hS, hL, hT⟩ :=
        pair_bytes pre n v (59 :: 32 :: cookieHeader [59, 32] (q :: rest)) hn hv
      rw [e0] at hlen hf ⊢
      have hL2 := hL
      simp only [List.length_cons] at hL2
      obtain ⟨g, rfl⟩ : ∃ g, fuel = g + 1 + v.length + 1 + n.length :=
        ⟨fuel - 1 - v.length - 1 - n.length, by omega⟩
      rw [cookieLoop_pair _ cookiename _ pre.length n.length v.length g acc hN hE hV hS
        (by omega)
        (nameMatches_other _ cookiename n pre.length hname hne (by omega) hT)]
      rw [hp, e1]
      rw [e1] at hlen hf
      exact ih (pre ++ (n ++ 61 :: (v ++ [59, 32]))) g _
        (fun pr h => hps pr (List.mem_cons_of_mem _ h)) hlen (by omega)

/-- C25 as stated fails: the header `a=1;bc=2` carries the pairs `a` and `bc`, none
of them named `c`, yet for the name `c` `GetCookieValue` returns 1 and stores the start
of the value of `bc`. After the `;` the scan steps over one more byte, here the `b`,
and takes the name to start behind it. -/
theorem C25_cookie_bounds_counterexample :
    cookieHeader [59] [([97], [49]), ([98, 99], [50])] = [97, 61, 49, 59, 98, 99, 61, 50]
    ∧ (∀ pr ∈ [(([97] : List Byte), ([49] : List Byte)), ([98, 99], [50])], pr.1 ≠ [99])
    ∧ GetCookieValue (cookieHeader [59] [([97], [49]), ([98, 99], [50])]) 8 [99] =
      some { ret := 1, cookievalue := some 7, scanned := [(0, 2), (5, 7)] } := by
  decide

/-- C25, amended: `GetCookieValue` stays in bounds and terminates. For every buffer (its
length a `uint32_t`) and every cookie name: the loop ends within the fuel of one unit
per byte and one more; every name length `cv - cn - 1` it computes is at least 0; on an
empty buffer it returns 0; when it returns `r > 0` it has stored a value start `s`, an
offset into the buffer, with `s + r` at most the length of the buffer; and when the
buffer is a header of `name=value` pairs joined by `; `, no name holding a `=` and no
value a `;`, the cookie name has no NUL byte and no pair's name equals it, the function
returns 0 and stores nothing. -/
theorem C25_cookie_bounds (rawcookies cookiename : List Byte)
    (hlen : rawcookies.length < 4294967296) :
    ∃ r, GetCookieValue rawcookies rawcookies.length cookiename = some r
      ∧ (∀ pr ∈ r.scanned, 0 ≤ (pr.2 : Int) - (pr.1 : Int) - 1)
      ∧ (rawcookies.length = 0 → r.ret = 0)
      ∧ (0 < r.ret → ∃ s, r.cookievalue = some s ∧ 0 ≤ s
          ∧ s + r.ret ≤ rawcookies.length)
      ∧ (∀ pairs : List (List Byte × List Byte),
          rawcookies = cookieHeader [59, 32] pairs → (∀ b ∈ cookiename, b ≠ 0) →
          (∀ pr ∈ pairs, 61 ∉ pr.1 ∧ 59 ∉ pr.2 ∧ pr.1 ≠ cookiename) →
          r.ret = 0 ∧ r.cookievalue = none) := by
  obtain ⟨r, new, h1, h2, h3, h4⟩ :=
    cookieLoop_spec rawcookies rawcookies.length cookiename hlen
      (rawcookies.length + 1) 0 0 none [] (le_refl _) (by intro c hc; cases hc)
      (by omega) (by omega)
  rw [List.nil_append] at h2
  rw [← h2] at h3 h4
  refine ⟨r, h1, ?_, ?_, ?_, ?_⟩
  · intro pr hpr
    have := h3 pr hpr
    omega
  · intro h0
    rcases h4 with ⟨h5, _, _⟩ | ⟨_, _, _, _, _, h8, h9⟩
    · exact h5
    · omega
  · intro hr
    rcases h4 with ⟨h5, _, _⟩ | ⟨_, s, h5, _, _, _, h9⟩
    · omega
    · exact ⟨s, h5, Nat.zero_le _, h9⟩
  · intro pairs hraw hname hps
    subst hraw
    obtain ⟨r1, g1, g2, g3⟩ :=
      cookieLoop_header cookiename hname pairs [] ((cookieHeader [59, 32] pairs).length + 1)
        [] hps hlen (by simp)
    have e : some r = some r1 := h1.symm.trans g1
    cases e
    exact ⟨g2, g3⟩

/-- C25 (amended) at concrete inputs: in the header `a=1; b=2` the name `c` is the name
of no pair and the function returns 0; for the name `a` it returns 2 with the value
start 2, and `2 + 2` is at most the 8 bytes of the header. -/
theorem C25_cookie_bounds_witness :
    (∃ r, GetCookieValue cookiesAB cookiesAB.length [99] = some r
      ∧ r.ret = 0 ∧ r.cookievalue = none)
    ∧ (∃ r, GetCookieValue cookiesAB cookiesAB.length [97] = some r
      ∧ r.ret = 2 ∧ ∃ s, r.cookievalue = some s ∧ s + r.ret ≤ cookiesAB.length) := by
  constructor
  · obtain ⟨r, h1, _, _, _, h5⟩ := C25_cookie_bounds cookiesAB [99] (by decide)
    exact ⟨r, h1, h5 [([97], [49]), ([98], [50])] (by decide) (by decide) (by decide)⟩
  · obtain ⟨r, h1, _, _, h4, _⟩ := C25_cookie_bounds cookiesAB [97] (by decide)
    have e : some r = some { ret := 2, cookievalue := some 2, scanned := [(0, 2)] } :=
      h1.symm.trans (by decide)
    cases e
    obtain ⟨s, hs, _, hb⟩ := h4 (by decide)
    exact ⟨_, h1, rfl, s, hs, hb⟩

end Suricata
